import Mathlib

/-!
Verification of the analyticsAI backend (docker_deployment/backend).

Shallow embedding of the routes and models the claims are about:
  - routes/code_generation.py : execute_python_code_in_kernel, json_to_html_table,
    the appended result-extraction wrapper, _generate_response, the variable-name
    sanitization in generate_code / execute_code.
  - routes/data.py : delete_file, get_combined_files, the CSV branch of preview_file.
  - routes/auth.py, models/session.py, models/user.py : register, login, logout,
    verify, Session.find_by_token, Session.create, User.create.

External services (the subprocess launcher, Gemini, GCS, SQLite, bcrypt, sha256)
are modelled by explicit state or by injective stand-ins, as documented at each
definition.  Machine integers do not occur (Python ints are unbounded); floats
reaching the renderer are modelled as exact rationals.
-/

namespace Analytics

/-! ## Character-list utilities (Python string primitives) -/

/-- Model of testing that `pat` is a prefix of `l` (used for Python `str.find`
and `in` on strings). -/
def startsWithL : List Char → List Char → Bool
  | [], _ => true
  | _ :: _, [] => false
  | p :: ps, c :: cs => p == c && startsWithL ps cs

/-- Model of Python `str.find`: index of the first occurrence of `pat`, as
`none` when absent (`-1` in Python). -/
def subFind (pat : List Char) : List Char → Option Nat
  | [] => if startsWithL pat [] then some 0 else none
  | c :: t => if startsWithL pat (c :: t) then some 0 else (subFind pat t).map (· + 1)

/-- Characters removed by Python `str.strip()`. -/
def pyIsSpace (c : Char) : Bool :=
  c == ' ' || c == '\t' || c == '\n' || c == '\r' || c == '\x0b' || c == '\x0c'

/-- Model of Python `str.strip()`. -/
def stripL (l : List Char) : List Char :=
  ((l.dropWhile pyIsSpace).reverse.dropWhile pyIsSpace).reverse

/-- Model of Python slicing `s[a:b]` for nonnegative indices. -/
def pySlice (l : List Char) (a b : Nat) : List Char :=
  (l.drop a).take (b - a)

/-! ## JSON values

Values that can appear in the child process's serialized result: the output of
`DataFrame.to_json(orient='records')` is a JSON array of flat records whose
fields are scalars, and `json.loads` turns them into Python ints, floats,
strs, bools and None.  A float is modelled by the exact decimal it was
parsed from or serialized as: `jfloat m e` stands for `m / 10 ^ e`. -/

inductive JValue where
  | jnull
  | jbool (b : Bool)
  | jint (n : Int)
  | jfloat (m : Int) (e : Nat)
  | jstr (s : String)
  deriving DecidableEq, Repr

/-- One record (a JSON object): association list of field name to scalar. -/
abbrev JRecord := List (String × JValue)

/-- A record array, the payload framed by the sentinels. -/
abbrev JData := List JRecord

/-! ## Decimal digits -/

/-- The ASCII digit character for `d < 10`. -/
def digitChar (d : Nat) : Char := Char.ofNat (48 + d)

/-- Decimal digits with explicit fuel (so that the kernel can evaluate it;
`fuel > n` always suffices since the argument shrinks tenfold each step). -/
def natDigsAux : Nat → Nat → List Char
  | 0, _ => []
  | fuel + 1, n =>
    if n < 10 then [digitChar n]
    else natDigsAux fuel (n / 10) ++ [digitChar (n % 10)]

/-- Decimal digits of a natural number, most significant first. -/
def natDigs (n : Nat) : List Char := natDigsAux (n + 1) n

/-- Decimal representation of an integer. -/
def intChars (n : Int) : List Char :=
  if n < 0 then '-' :: natDigs n.natAbs else natDigs n.toNat

/-! ## Printer: model of `DataFrame.to_json(orient='records')` -/

/-- JSON string escaping as pandas performs it (`"` `\` `/` and the common
control characters; non-ASCII is out of the modelled character range). -/
def escJChar (c : Char) : List Char :=
  if c = '\x22' then ['\\', '\x22']
  else if c = '\\' then ['\\', '\\']
  else if c = '/' then ['\\', '/']
  else if c = '\n' then ['\\', 'n']
  else if c = '\t' then ['\\', 't']
  else if c = '\r' then ['\\', 'r']
  else [c]

def escJ : List Char → List Char
  | [] => []
  | c :: l => escJChar c ++ escJ l

/-- Zero-pad a digit list on the left to width `w`. -/
def padZeros (w : Nat) (ds : List Char) : List Char :=
  List.replicate (w - ds.length) '0' ++ ds

/-- Decimal rendering of the modelled float `m / 10 ^ e` as pandas serializes
it (sign, integer part, point, fraction; `7.0` for an integral float). -/
def floatJChars (m : Int) (e : Nat) : List Char :=
  let a := m.natAbs
  let ip := a / 10 ^ e
  let fp := a % 10 ^ e
  (if m < 0 then ['-'] else [])
    ++ natDigs ip ++ '.' :: (if fp = 0 then ['0'] else padZeros e (natDigs fp))

def printJValue : JValue → List Char
  | .jnull => ['n', 'u', 'l', 'l']
  | .jbool true => ['t', 'r', 'u', 'e']
  | .jbool false => ['f', 'a', 'l', 's', 'e']
  | .jint n => intChars n
  | .jfloat m e => floatJChars m e
  | .jstr s => '\x22' :: (escJ s.data ++ ['\x22'])

def printField (kv : String × JValue) : List Char :=
  '\x22' :: (escJ kv.1.data ++ ['\x22']) ++ ':' :: printJValue kv.2

/-- Comma-join of already-printed pieces. -/
def joinComma : List (List Char) → List Char
  | [] => []
  | [x] => x
  | x :: y :: xs => x ++ ',' :: joinComma (y :: xs)

def printRecord (r : JRecord) : List Char :=
  '\x7b' :: (joinComma (r.map printField) ++ ['\x7d'])

def printRecords (df : JData) : List Char :=
  '[' :: (joinComma (df.map printRecord) ++ [']'])

/-- `DataFrame.to_json(orient='records')` on the modelled frame. -/
def dfToJson (df : JData) : String := String.mk (printRecords df)

/-! ## Parser: model of `json.loads` on the record-array subset -/

/-- Unescaping of a character following a backslash (the `\uXXXX` form is
outside the modelled subset). -/
def unescChar (c : Char) : Option Char :=
  if c = '\x22' then some '\x22'
  else if c = '\\' then some '\\'
  else if c = '/' then some '/'
  else if c = 'n' then some '\n'
  else if c = 't' then some '\t'
  else if c = 'r' then some '\r'
  else if c = 'b' then some '\x08'
  else if c = 'f' then some '\x0c'
  else none

/-- String-body scanner: input after the opening quote, accumulator reversed. -/
def parseStrAux : List Char → List Char → Option (List Char × List Char)
  | [], _ => none
  | c :: rest, acc =>
    if c = '\x22' then some (acc.reverse, rest)
    else if c = '\\' then
      match rest with
      | [] => none
      | e :: rest2 =>
        match unescChar e with
        | some c2 => parseStrAux rest2 (c2 :: acc)
        | none => none
    else parseStrAux rest (c :: acc)

/-- Parse a quoted JSON string literal. -/
def parseStringLit (l : List Char) : Option (String × List Char) :=
  match l with
  | c :: rest => if c = '\x22' then (parseStrAux rest []).map (fun p => (String.mk p.1, p.2)) else none
  | [] => none

/-- Longest leading run of ASCII digits. -/
def spanDig : List Char → List Char × List Char
  | [] => ([], [])
  | c :: rest =>
    if c.isDigit then
      let p := spanDig rest
      (c :: p.1, p.2)
    else ([], c :: rest)

/-- Value of a digit list. -/
def digsVal (l : List Char) : Nat :=
  l.foldl (fun acc c => acc * 10 + (c.toNat - 48)) 0

/-- The digits (and optional fraction) of a JSON number after the sign. -/
def parseNumTail (neg : Bool) (l : List Char) : Option (JValue × List Char) :=
  let p := spanDig l
  if p.1 = [] then none
  else
    match p.2 with
    | c :: r =>
      if c = '.' then
        let pf := spanDig r
        if pf.1 = [] then none
        else
          let m : Int := (digsVal p.1 * 10 ^ pf.1.length + digsVal pf.1 : Nat)
          some (.jfloat (if neg then -m else m) pf.1.length, pf.2)
      else some (.jint (if neg then -(digsVal p.1 : Int) else (digsVal p.1 : Int)), c :: r)
    | [] => some (.jint (if neg then -(digsVal p.1 : Int) else (digsVal p.1 : Int)), [])

/-- Parse a JSON number (integer, or decimal fraction; exponents are outside
the modelled subset). -/
def parseNumber (l : List Char) : Option (JValue × List Char) :=
  match l with
  | [] => none
  | c :: r => if c = '-' then parseNumTail true r else parseNumTail false (c :: r)

/-- Parse one scalar value. -/
def parseScalar (l : List Char) : Option (JValue × List Char) :=
  if startsWithL ['n', 'u', 'l', 'l'] l then some (.jnull, l.drop 4)
  else if startsWithL ['t', 'r', 'u', 'e'] l then some (.jbool true, l.drop 4)
  else if startsWithL ['f', 'a', 'l', 's', 'e'] l then some (.jbool false, l.drop 5)
  else if startsWithL ['\x22'] l then (parseStringLit l).map (fun p => (JValue.jstr p.1, p.2))
  else parseNumber l

/-- Parse the fields of an object, positioned after the opening brace.  The
fuel bounds the number of fields. -/
def parseFieldsAux : Nat → List Char → JRecord → Option (JRecord × List Char)
  | 0, _, _ => none
  | fuel + 1, l, acc =>
    match parseStringLit l with
    | none => none
    | some (k, l1) =>
      match l1 with
      | [] => none
      | c :: l2 =>
        if c = ':' then
          match parseScalar l2 with
          | none => none
          | some (v, l3) =>
            match l3 with
            | [] => none
            | c2 :: l4 =>
              if c2 = ',' then parseFieldsAux fuel l4 (acc ++ [(k, v)])
              else if c2 = '\x7d' then some (acc ++ [(k, v)], l4)
              else none
        else none

/-- Parse one object. -/
def parseRecordJ (l : List Char) : Option (JRecord × List Char) :=
  match l with
  | [] => none
  | c :: rest =>
    if c = '\x7b' then
      match rest with
      | [] => none
      | c2 :: r2 =>
        if c2 = '\x7d' then some ([], r2)
        else parseFieldsAux (rest.length + 1) rest []
    else none

/-- Parse the elements of an array of objects, positioned after the opening
bracket.  The fuel bounds the number of records. -/
def parseRecordsAux : Nat → List Char → JData → Option (JData × List Char)
  | 0, _, _ => none
  | fuel + 1, l, acc =>
    match parseRecordJ l with
    | none => none
    | some (r, l1) =>
      match l1 with
      | [] => none
      | c :: l2 =>
        if c = ',' then parseRecordsAux fuel l2 (acc ++ [r])
        else if c = ']' then some (acc ++ [r], l2)
        else none

/-- Model of `json.loads` on the record-array subset the child process emits
(the parent only ever feeds it text produced by `to_json(orient='records')`,
or arbitrary malformed text, which must yield an error). -/
def jsonLoadsL (l : List Char) : Except String JData :=
  match l.dropWhile pyIsSpace with
  | [] => .error "Expecting value"
  | c :: rest =>
    if c = '[' then
      match rest with
      | [] => .error "Expecting value"
      | c2 :: r2 =>
        if c2 = ']' then
          if r2.dropWhile pyIsSpace = [] then .ok [] else .error "Extra data"
        else
          match parseRecordsAux (rest.length + 1) rest [] with
          | some (rs, rem) =>
            if rem.dropWhile pyIsSpace = [] then .ok rs else .error "Extra data"
          | none => .error "Expecting value"
    else .error "Expecting value"

/-! ## Python number formatting (`f"{v:,}"`, `f"{v:,.2f}"`) -/

/-- Chunks of three characters (input already reversed, least significant
digit first). -/
def chunk3 : List Char → List (List Char)
  | a :: b :: c :: d :: rest => [a, b, c] :: chunk3 (d :: rest)
  | l => [l]

/-- Insert thousands separators into a digit list. -/
def addCommas (ds : List Char) : List Char :=
  (joinComma (chunk3 ds.reverse)).reverse

/-- Model of Python `f"{n:,}"` for a nonnegative integer. -/
def natCommas (n : Nat) : String := String.mk (addCommas (natDigs n))

/-- Model of Python `f"{n:,}"` for an integer. -/
def intCommas (n : Int) : String :=
  if n < 0 then "-" ++ natCommas n.natAbs else natCommas n.toNat

/-- Round `a / d` to the nearest natural, ties to even (Python `format`
rounding on the magnitude; `d > 0`). -/
def roundHalfEvenDiv (a d : Nat) : Nat :=
  let q := a / d
  let r := a % d
  if 2 * r < d then q
  else if d < 2 * r then q + 1
  else if q % 2 = 0 then q else q + 1

/-- Two-digit zero-padded rendering of `m < 100`. -/
def twoDigits (m : Nat) : String :=
  (if m < 10 then "0" else "") ++ String.mk (natDigs m)

/-- Model of Python `f"{v:,.2f}"` on the decimal model `m / 10 ^ e` of the
float. -/
def floatFmt2 (m : Int) (e : Nat) : String :=
  let n := roundHalfEvenDiv (m.natAbs * 100) (10 ^ e)
  (if m < 0 then "-" else "") ++ natCommas (n / 100) ++ "." ++ twoDigits (n % 100)

/-! ## json_to_html_table (routes/code_generation.py lines 597-642) -/

/-- Model of Python `row.get(col, "")` on the parsed record. -/
def pyGet (r : JRecord) (k : String) : Option JValue :=
  (r.find? (fun kv => kv.1 == k)).map (fun kv => kv.2)

/-- The cell text the loop body produces for one value.  `none` is a missing
key, rendered as the default `""`.  A JSON bool is a Python `bool`, which is
an instance of `int`, so it takes the numeric branch and `f"{True:,}"`
formats it as `1` (and `False` as `0`).  A float equal to its truncation
(`value != int(value)` false, i.e. `10 ^ e` divides `m`) is re-rendered as an
integer with separators; otherwise with two decimals. -/
def renderCell : Option JValue → String
  | none => ""
  | some (.jstr s) => s
  | some .jnull => "None"
  | some (.jbool b) => if b then "1" else "0"
  | some (.jint n) => intCommas n
  | some (.jfloat m e) =>
    if ((10 : Int) ^ e) ∣ m then intCommas (m / 10 ^ e) else floatFmt2 m e

def thCell (col : String) : String :=
  "<th class=\x22px-6 py-3 text-left text-xs font-medium text-gray-500 uppercase tracking-wider\x22>"
    ++ col ++ "</th>\n"

def tdCell (s : String) : String :=
  "<td class=\x22px-6 py-4 whitespace-nowrap text-sm text-gray-900\x22>" ++ s ++ "</td>\n"

def htmlOpenA : String :=
  "\n    <table class=\x22min-w-full divide-y divide-gray-200\x22>\n        <thead class=\x22bg-gray-50\x22>\n            <tr>\n    "

def htmlOpenB : String :=
  "\n            </tr>\n        </thead>\n        <tbody class=\x22bg-white divide-y divide-gray-200\x22>\n    "

def htmlClose : String :=
  "\n        </tbody>\n    </table>\n    "

/-- Translation of `json_to_html_table`: empty data yields the fixed notice;
otherwise columns come from the first record's keys, one `<tr>` per record. -/
def json_to_html_table (data : JData) : String :=
  if data = [] then "<p>No data to display</p>"
  else
    let columns := (data.headD []).map (fun kv => kv.1)
    htmlOpenA
      ++ String.join (columns.map thCell)
      ++ htmlOpenB
      ++ String.join (data.map (fun row =>
          "<tr>\n"
            ++ String.join (columns.map (fun col => tdCell (renderCell (pyGet row col))))
            ++ "</tr>\n"))
      ++ htmlClose

/-! ## execute_python_code_in_kernel (routes/code_generation.py lines 519-595)

The subprocess launch is external; its outcome is the input of the model:
either `subprocess.TimeoutExpired` was raised (the hard 30-second budget was
exceeded), or the child exited with a return code, captured stdout and
captured stderr.  A child in which an exception propagates to the top exits
with a nonzero return code (CPython exits with 1 on an uncaught exception). -/

/-- The fixed wall-clock budget passed to `subprocess.run` (seconds). -/
def EXEC_TIMEOUT_SECONDS : Nat := 30

inductive ChildOutcome where
  | procTimeout
  | exited (returncode : Int) (stdout : String) (stderrOut : String)
  deriving DecidableEq, Repr

/-- The structured result dict (`success`/`data`/`error`). -/
inductive KernelResult where
  | ok (data : JData)
  | err (msg : String)
  deriving DecidableEq, Repr

def startMarker : List Char := "SUCCESS_JSON_START".data

def endMarker : List Char := "SUCCESS_JSON_END".data

/-- Translation of the parent side of `execute_python_code_in_kernel`: return
code check, sentinel scan over stdout, slice between the markers, strip,
JSON parse. -/
def execute_python_code_in_kernel : ChildOutcome → KernelResult
  | .procTimeout => .err "Code execution timed out"
  | .exited rc out errOut =>
    if rc ≠ 0 then .err ("Code execution failed: " ++ errOut)
    else
      match subFind startMarker out.data, subFind endMarker out.data with
      | some i, some j =>
        match jsonLoadsL (stripL (pySlice out.data (i + 18 + 1) j)) with
        | .ok d => .ok d
        | .error e => .err ("Failed to parse JSON result: " ++ e)
      | some _, none => .err "No valid result found in code output"
      | none, _ => .err "No valid result found in code output"

/-- The four failure causes the spec distinguishes. -/
inductive FailCause where
  | processFailure
  | timedOut
  | protocolAbsent
  | parseFailure
  deriving DecidableEq, Repr

/-- Classify an error message by its fixed prefix.  The four prefixes are
pairwise incompatible, so a message classifies as at most one cause. -/
def classifyMsg (m : String) : Option FailCause :=
  if startsWithL "Code execution timed out".data m.data then some .timedOut
  else if startsWithL "Code execution failed: ".data m.data then some .processFailure
  else if startsWithL "Failed to parse JSON result: ".data m.data then some .parseFailure
  else if m = "No valid result found in code output" then some .protocolAbsent
  else none

def resultCause : KernelResult → Option FailCause
  | .ok _ => none
  | .err m => classifyMsg m

/-! ## The appended result-extraction wrapper (lines 525-541)

The wrapper appended to the user code lists the globals bound to DataFrames,
binds `ans_df` to the last one when `ans_df` is absent, and prints the
serialized result between the sentinel lines; with no candidate it prints the
protocol-less error line.  The child's state after the user code is its
globals dictionary (insertion-ordered, unique keys), modelled as a list. -/

inductive PyVal where
  | pdf (df : JData)
  | other
  deriving DecidableEq, Repr

/-- Lookup in the globals dict. -/
def lookupG (g : List (String × PyVal)) (n : String) : Option PyVal :=
  (g.find? (fun kv => kv.1 == n)).map (fun kv => kv.2)

/-- The comprehension `[name for name, val in globals().items() if
isinstance(val, pd.DataFrame)]`. -/
def dfCandidates (g : List (String × PyVal)) : List (String × JData) :=
  g.filterMap (fun kv =>
    match kv.2 with
    | .pdf d => some (kv.1, d)
    | .other => none)

/-- The stdout the wrapper produces on the success path: whatever the earlier
code printed, then the sentinel-framed serialized frame (each `print` appends
a newline). -/
def childStdout (prior : String) (df : JData) : String :=
  prior ++ "SUCCESS_JSON_START\n" ++ dfToJson df ++ "\nSUCCESS_JSON_END\n"

/-- Outcome of the child process given the globals left by the user code and
the stdout `prior` printed before the wrapper runs.  An `ans_df` that is not
a DataFrame makes `ans_df.to_json` raise, so the child exits nonzero. -/
def childRun (prior : String) (g : List (String × PyVal)) : ChildOutcome :=
  let cands := dfCandidates g
  let g2 :=
    match lookupG g "ans_df", cands.getLast? with
    | none, some last => g ++ [("ans_df", PyVal.pdf last.2)]
    | _, _ => g
  match lookupG g2 "ans_df" with
  | some (.pdf d) => .exited 0 (childStdout prior d) ""
  | some .other =>
    .exited 1 prior "AttributeError: object has no attribute to_json"
  | none => .exited 0 (prior ++ "ERROR: No ans_df found\n") ""

/-! ## _generate_response (routes/code_generation.py lines 70-91)

The Gemini call is external: its outcome (raised exception message, or
response text) is the input.  A missing `GEMINI_API_KEY` raises before the
call; every exception is caught and turned into the one-line fallback
source. -/

/-- Python `str(e).replace("'", "\\'")` on the character list. -/
def escQ : List Char → List Char
  | [] => []
  | c :: t => if c = '\x27' then '\\' :: '\x27' :: escQ t else c :: escQ t

/-- Python `str(e).replace("'", "\\'")`. -/
def escapeSingleQuotes (s : String) : String := String.mk (escQ s.data)

/-- The one-line fallback source built in the except branch. -/
def fallbackSource (e : String) : String :=
  "print(\x27Error generating code: " ++ escapeSingleQuotes e ++ "\x27)"

def GEMINI_KEY_ERROR : String := "GEMINI_API_KEY not found in environment variables"

/-- Translation of `_generate_response`: the api key from the environment and
the outcome of `GenerativeModel(...).generate_content(prompt).text`. -/
def _generate_response (apiKey : Option String) (callResult : Except String String) : String :=
  match apiKey with
  | none => fallbackSource GEMINI_KEY_ERROR
  | some _ =>
    match callResult with
    | .ok text => text
    | .error e => fallbackSource e

/-! ## Storage routes (routes/data.py)

GCS is external; it is modelled as a bucket-name-to-object-list map.  A
bucket absent from the map does not exist (listing it raises the 404); the
provider calls a handler performs are logged so that "no provider call" is a
provable statement. -/

structure HttpErr where
  status : Nat
  detail : String
  deriving DecidableEq, Repr

structure GcsState where
  buckets : List (String × List String)
  deriving DecidableEq, Repr

inductive ProviderCall where
  | existsCheck (bucket file : String)
  | deleteBlob (bucket file : String)
  deriving DecidableEq, Repr

def bucketObjects (st : GcsState) (b : String) : Option (List String) :=
  (st.buckets.find? (fun p => p.1 == b)).map (fun p => p.2)

/-- `blob.exists()` on the modelled state. -/
def blobExists (st : GcsState) (b f : String) : Bool :=
  match bucketObjects st b with
  | some fs => fs.contains f
  | none => false

def removeBlob (st : GcsState) (b f : String) : GcsState :=
  ⟨st.buckets.map (fun p => if p.1 = b then (p.1, p.2.erase f) else p)⟩

/-- Translation of `delete_file` (data.py lines 261-286): deletion is allowed
only against the default bucket; elsewhere the handler raises 403 before any
client is created.  Result, next state, provider calls performed. -/
def delete_file (DEFAULT_BUCKET bucket_name file_name : String) (st : GcsState) :
    Except HttpErr String × GcsState × List ProviderCall :=
  if bucket_name = DEFAULT_BUCKET then
    if blobExists st bucket_name file_name then
      (.ok ("File \x27" ++ file_name ++ "\x27 deleted successfully"),
        removeBlob st bucket_name file_name,
        [.existsCheck bucket_name file_name, .deleteBlob bucket_name file_name])
    else
      (.error ⟨404, "File \x27" ++ file_name ++ "\x27 not found"⟩, st,
        [.existsCheck bucket_name file_name])
  else
    (.error ⟨403, "File deletion not supported for public buckets. Use authenticated access for write operations."⟩,
      st, [])

/-- One entry of the combined listing after tagging. -/
structure TaggedFile where
  name : String
  source : String
  bucket : String
  sourceInfo : String
  deriving DecidableEq, Repr

/-- `get_bucket_files` reduced to what the combined listing consumes: the
object names, or the 404 when the bucket does not exist. -/
def get_bucket_files (bucket_name : String) (st : GcsState) : Except HttpErr (List String) :=
  match bucketObjects st bucket_name with
  | some fs => .ok fs
  | none => .error ⟨404, "Bucket \x27" ++ bucket_name ++ "\x27 not found"⟩

/-- Python truthiness of the optional query parameter (absent or empty is
falsy). -/
def pyTruthy : Option String → Bool
  | none => false
  | some s => !s.isEmpty

/-- The tagging of one uploaded-bucket entry (`file["source"] = "uploaded"`
etc.). -/
def upEntry (DEFAULT_BUCKET n : String) : TaggedFile :=
  ⟨n, "uploaded", DEFAULT_BUCKET, "Your uploaded files"⟩

/-- The tagging of one public-bucket entry. -/
def pubEntry (pb n : String) : TaggedFile :=
  ⟨n, "public", pb, "Public bucket: " ++ pb⟩

/-- One iteration of the public-bucket loop: skip a name already present in
the accumulated list (uploaded files take priority), append otherwise. -/
def addPub (pb : String) (acc : List TaggedFile) (n : String) : List TaggedFile :=
  if (acc.find? (fun f => f.name == n)).isSome then acc
  else acc ++ [pubEntry pb n]

/-- Translation of `get_combined_files` (data.py lines 64-103): nothing
without a truthy public bucket; uploaded files first, then public files that
do not repeat an already-listed name; failures of either listing are
swallowed (`except: pass`). -/
def get_combined_files (DEFAULT_BUCKET : String) (public_bucket : Option String)
    (st : GcsState) : List TaggedFile :=
  if pyTruthy public_bucket then
    let pb := public_bucket.getD ""
    let uploaded : List TaggedFile :=
      match get_bucket_files DEFAULT_BUCKET st with
      | .ok fs => fs.map (upEntry DEFAULT_BUCKET)
      | .error _ => []
    if pb ≠ DEFAULT_BUCKET then
      match get_bucket_files pb st with
      | .ok fs => fs.foldl (addPub pb) uploaded
      | .error _ => uploaded
    else uploaded
  else []

/-! ## CSV preview (routes/data.py lines 105-157)

`pd.read_csv` is external; the model starts from the parsed frame: column
names with their inferred pandas dtype strings, and the data rows. -/

structure PColumn where
  name : String
  dtype : String
  deriving DecidableEq, Repr

/-- One data row, as `to_dict('records')` renders it (cell content is
irrelevant to the claims). -/
abbrev PRow := List (String × String)

structure PDataFrame where
  cols : List PColumn
  rows : List PRow
  deriving DecidableEq, Repr

/-- `df.head(n)` for a Python int `n`: first `n` rows when `n ≥ 0`, all but
the last `|n|` rows when `n < 0`. -/
def pandas_head (n : Int) (l : List PRow) : List PRow :=
  if 0 ≤ n then l.take n.toNat else l.take (l.length - (-n).toNat)

/-- Python `min` on ints. -/
def pyMin (a b : Int) : Int := if a ≤ b then a else b

/-- The dtype-prefix-to-readable-type mapping of the preview handler. -/
def dtypeMapped (dtype : String) : String :=
  if startsWithL "int".data dtype.data then "int"
  else if startsWithL "float".data dtype.data then "float"
  else if startsWithL "bool".data dtype.data then "bool"
  else if startsWithL "datetime".data dtype.data then "date"
  else "string"

structure ColDesc where
  name : String
  typeTag : String
  dtype : String
  deriving DecidableEq, Repr

structure PreviewOut where
  kind : String
  columns : List ColDesc
  rows : List PRow
  rowsShown : Int
  totalRows : Nat
  deriving DecidableEq, Repr

/-- Translation of the CSV branch of `preview_file`: records from
`df.head(rows)`, per-column descriptors, `rowsShown = min(rows, len(df))`,
`totalRows = len(df)`. -/
def preview_csv (df : PDataFrame) (rows : Int) : PreviewOut :=
  { kind := "csv"
    columns := df.cols.map (fun c => ⟨c.name, dtypeMapped c.dtype, c.dtype⟩)
    rows := pandas_head rows df.rows
    rowsShown := pyMin rows (df.rows.length : Int)
    totalRows := df.rows.length }

/-! ## Variable-name sanitization (code_generation.py lines 166-184, 316-334)

`re.sub(r'[^a-zA-Z0-9]', '_', filename.split('.')[0]).lower()`, then a
`df_` prefix when the first character is a digit.  `variable_name[0]` raises
IndexError when the stem is empty (filename empty or starting with a dot),
which the route's outer except turns into a failed response: the mapping is
partial there, modelled as `none`. -/

/-- Python `filename.split('.')[0]`. -/
def pyStem (filename : String) : List Char :=
  filename.data.takeWhile (fun c => c ≠ '.')

/-- One character of the `re.sub` replacement (the regex is ASCII-literal, so
every non-ASCII-alphanumeric character becomes an underscore). -/
def sanitizeChar (c : Char) : Char :=
  if c.isAlpha || c.isDigit then c else '_'

/-- The variable/table identifier derived from a selected file's name. -/
def variable_name_of (filename : String) : Option String :=
  let s2 := ((pyStem filename).map sanitizeChar).map Char.toLower
  match s2 with
  | [] => none
  | c :: _ => some (if c.isDigit then "df_" ++ String.mk s2 else String.mk s2)

/-- Bucket backing a selected file: `source` defaults to `uploaded`, which is
backed by the default bucket; anything else uses the file's own bucket field,
defaulting to the default bucket. -/
def bucket_for (DEFAULT_BUCKET : String) (source bucketField : Option String) : String :=
  if source.getD "uploaded" = "uploaded" then DEFAULT_BUCKET
  else bucketField.getD DEFAULT_BUCKET

/-! ## Credential and session store (models/user.py, models/session.py,
routes/auth.py)

SQLite and the hash primitives are external.  bcrypt is modelled as an ideal
salted hash: the stored digest is a pair of the salt and the password, and
`checkpw` recomputes and compares — collision-free, as the claims assume of
the real KDF.  sha256 is modelled as an injective tagging of the token.
Timestamps are abstract instants (`Nat`); the stored ISO-8601 strings of the
source compare lexicographically exactly as the instants compare. -/

structure BHash where
  salt : String
  pw : String
  deriving DecidableEq, Repr

/-- `bcrypt.hashpw(password, gensalt())` with the salt made explicit. -/
def hashpw (password salt : String) : BHash := ⟨salt, password⟩

/-- `bcrypt.checkpw(candidate, stored)`. -/
def checkpw (candidate : String) (stored : BHash) : Bool := stored.pw == candidate

/-- `hashlib.sha256(token.encode()).hexdigest()`, modelled injectively. -/
def sha256hex (token : String) : String := "sha256$" ++ token

/-- A `users` row (`id, username, password, name` — the SELECT * order). -/
structure UserRow where
  id : Nat
  username : String
  password : BHash
  name : String
  deriving DecidableEq, Repr

/-- A `user_sessions` row. -/
structure SessionRow where
  id : Nat
  user_id : Nat
  token_hash : String
  expires_at : Nat
  is_active : Nat
  deriving DecidableEq, Repr

structure Db where
  users : List UserRow
  sessions : List SessionRow
  deriving DecidableEq, Repr

/-- `SELECT * FROM users WHERE username = ?` (first row). -/
def find_by_username (db : Db) (username : String) : Option UserRow :=
  db.users.find? (fun u => u.username == username)

/-- `SELECT * FROM users WHERE id = ?` (first row). -/
def find_by_id (db : Db) (uid : Nat) : Option UserRow :=
  db.users.find? (fun u => u.id == uid)

/-- The `lastrowid` of the next insert: one past the largest rowid. -/
def nextUserId (db : Db) : Nat :=
  db.users.foldr (fun u m => max u.id m) 0 + 1

def nextSessionId (db : Db) : Nat :=
  db.sessions.foldr (fun s m => max s.id m) 0 + 1

/-- Seconds in `timedelta(days=7)`. -/
def SESSION_LIFETIME : Nat := 7 * 24 * 60 * 60

/-- `Session.create`: a fresh token (the entropy of `secrets.token_hex` is the
`token` argument), stored only as its hash, expiring seven days from `now`;
`is_active` takes the schema default 1. -/
def session_create (db : Db) (uid : Nat) (token : String) (now : Nat) : String × Db :=
  (token,
    { db with
      sessions := db.sessions ++
        [⟨nextSessionId db, uid, sha256hex token, now + SESSION_LIFETIME, 1⟩] })

/-- `Session.find_by_token`: `token_hash = ? AND is_active = 1 AND
expires_at > now` (first row). -/
def find_by_token (db : Db) (token : String) (now : Nat) : Option SessionRow :=
  db.sessions.find? (fun s =>
    s.token_hash == sha256hex token && s.is_active == 1 && now < s.expires_at)

/-- The `/auth/logout` update: `SET is_active = 0 WHERE token_hash = ?`. -/
def logout (db : Db) (token : String) : Db :=
  { db with
    sessions := db.sessions.map (fun s =>
      if s.token_hash = sha256hex token then { s with is_active := 0 } else s) }

/-- `/auth/register`: reject a taken username with 400, otherwise store the
salted hash and issue a session token. -/
def register (db : Db) (name username password salt token : String) (now : Nat) :
    Except HttpErr (String × Db) :=
  match find_by_username db username with
  | some _ => .error ⟨400, "Username already registered"⟩
  | none =>
    let uid := nextUserId db
    let db1 : Db := { db with users := db.users ++ [⟨uid, username, hashpw password salt, name⟩] }
    .ok (session_create db1 uid token now)

/-- `/auth/login`: both a missing user and a failed `checkpw` yield the same
400; success issues a new session token. -/
def login (db : Db) (username password token : String) (now : Nat) :
    Except HttpErr (String × Db) :=
  match find_by_username db username with
  | none => .error ⟨400, "Incorrect username or password"⟩
  | some dbUser =>
    if checkpw password dbUser.password then .ok (session_create db dbUser.id token now)
    else .error ⟨400, "Incorrect username or password"⟩

/-- `/auth/verify`: session lookup by hashed token, then owner lookup;
returns `(user_id, username, name)` on success. -/
def verify (db : Db) (token : String) (now : Nat) : Except HttpErr (Nat × String × String) :=
  match find_by_token db token now with
  | none => .error ⟨401, "Invalid or expired token"⟩
  | some s =>
    match find_by_id db s.user_id with
    | none => .error ⟨401, "User not found"⟩
    | some u => .ok (s.user_id, u.username, u.name)

/-! ## Serialization round trip

`json.loads` recovers exactly the frame `to_json(orient='records')` printed,
for frames whose text content stays inside the escape-free character range
and whose cells are not floats (the wrapper claims are about frames, whose
serialized ints and strings round-trip exactly). -/

theorem digitChar_isDigit {d : Nat} (h : d < 10) : (digitChar d).isDigit = true := by
  interval_cases d <;> decide

theorem digitChar_toNat {d : Nat} (h : d < 10) : (digitChar d).toNat = 48 + d := by
  interval_cases d <;> decide

theorem natDigsAux_ne_nil (fuel n : Nat) (h : n < fuel) : natDigsAux fuel n ≠ [] := by
  cases fuel with
  | zero => omega
  | succ f =>
    rw [natDigsAux]
    split <;> simp

theorem natDigs_ne_nil (n : Nat) : natDigs n ≠ [] :=
  natDigsAux_ne_nil (n + 1) n (by omega)

theorem natDigsAux_all_digit :
    ∀ (fuel n : Nat), n < fuel → ∀ c ∈ natDigsAux fuel n, c.isDigit = true := by
  intro fuel
  induction fuel with
  | zero => omega
  | succ f ih =>
    intro n hn
    rw [natDigsAux]
    split
    next h =>
      intro c hc
      simp only [List.mem_singleton] at hc
      exact hc ▸ digitChar_isDigit h
    next h =>
      intro c hc
      rcases List.mem_append.mp hc with h1 | h2
      · exact ih (n / 10) (by omega) c h1
      · simp only [List.mem_singleton] at h2
        exact h2 ▸ digitChar_isDigit (Nat.mod_lt _ (by omega))

theorem natDigs_all_digit (n : Nat) : ∀ c ∈ natDigs n, c.isDigit = true :=
  natDigsAux_all_digit (n + 1) n (by omega)

theorem digsVal_append_one (l : List Char) (c : Char) :
    digsVal (l ++ [c]) = 10 * digsVal l + (c.toNat - 48) := by
  simp [digsVal, List.foldl_append, Nat.mul_comm]

theorem digsVal_natDigsAux :
    ∀ (fuel n : Nat), n < fuel → digsVal (natDigsAux fuel n) = n := by
  intro fuel
  induction fuel with
  | zero => omega
  | succ f ih =>
    intro n hn
    rw [natDigsAux]
    split
    next h =>
      simp [digsVal, digitChar_toNat h]
    next h =>
      rw [digsVal_append_one, ih (n / 10) (by omega),
          digitChar_toNat (Nat.mod_lt _ (by omega))]
      omega

theorem digsVal_natDigs (n : Nat) : digsVal (natDigs n) = n :=
  digsVal_natDigsAux (n + 1) n (by omega)

/-- Tail shape under which a number parse stops exactly at the printed
digits. -/
def numTailOk : List Char → Prop
  | [] => True
  | c :: _ => c.isDigit = false ∧ c ≠ '.'

theorem spanDig_append {ds rest : List Char} (hd : ∀ c ∈ ds, c.isDigit = true)
    (hr : ∀ c t, rest = c :: t → c.isDigit = false) :
    spanDig (ds ++ rest) = (ds, rest) := by
  induction ds with
  | nil =>
    cases rest with
    | nil => rfl
    | cons c t => simp [spanDig, hr c t rfl]
  | cons d ds ih =>
    have hdd : d.isDigit = true := hd d (by simp)
    simp only [List.cons_append, spanDig, hdd, if_pos, List.append_eq]
    rw [ih (fun c hc => hd c (by simp [hc]))]

theorem beq_false_of_not_digit {p c : Char} (hp : p.isDigit = false)
    (hc : c.isDigit = true) : (p == c) = false := by
  cases h : (p == c) with
  | false => rfl
  | true =>
    have : p = c := by simpa using h
    rw [this] at hp
    rw [hp] at hc
    exact absurd hc (by simp)

theorem startsWithL_cons_false {p c : Char} {ps l : List Char} (h : (p == c) = false) :
    startsWithL (p :: ps) (c :: l) = false := by
  simp [startsWithL, h]

/-- Characters that pandas serializes unescaped (and that cannot terminate or
destabilize a JSON string literal). -/
def cleanChar (c : Char) : Bool :=
  !(c == '\x22' || c == '\\' || c == '/' || c == '\n' || c == '\t' || c == '\r')

theorem escJChar_clean {c : Char} (h : cleanChar c = true) : escJChar c = [c] := by
  simp only [cleanChar, Bool.not_eq_true', Bool.or_eq_false_iff, beq_eq_false_iff_ne] at h
  obtain ⟨⟨⟨⟨⟨h1, h2⟩, h3⟩, h4⟩, h5⟩, h6⟩ := h
  simp [escJChar, h1, h2, h3, h4, h5, h6]

theorem escJ_clean {l : List Char} (h : ∀ c ∈ l, cleanChar c = true) : escJ l = l := by
  induction l with
  | nil => rfl
  | cons c t ih =>
    rw [escJ, escJChar_clean (h c (by simp)), ih (fun x hx => h x (by simp [hx]))]
    rfl

theorem cleanChar_facts {c : Char} (h : cleanChar c = true) : c ≠ '\x22' ∧ c ≠ '\\' := by
  simp only [cleanChar, Bool.not_eq_true', Bool.or_eq_false_iff, beq_eq_false_iff_ne] at h
  exact ⟨h.1.1.1.1.1, h.1.1.1.1.2⟩

theorem parseStrAux_append {l : List Char} (h : ∀ c ∈ l, cleanChar c = true) :
    ∀ (acc rest : List Char),
      parseStrAux (l ++ '\x22' :: rest) acc = some (acc.reverse ++ l, rest) := by
  induction l with
  | nil =>
    intro acc rest
    rw [parseStrAux.eq_def]
    simp
  | cons c t ih =>
    intro acc rest
    obtain ⟨h1, h2⟩ := cleanChar_facts (h c (by simp))
    rw [List.cons_append, parseStrAux.eq_def]
    simp only [if_neg h1, if_neg h2]
    rw [ih (fun x hx => h x (by simp [hx])) (c :: acc) rest]
    simp

theorem parseStringLit_print (s : String) (rest : List Char)
    (h : ∀ c ∈ s.data, cleanChar c = true) :
    parseStringLit ('\x22' :: (escJ s.data ++ ['\x22']) ++ rest) = some (s, rest) := by
  rw [escJ_clean h]
  have : ('\x22' :: (s.data ++ ['\x22'])) ++ rest = '\x22' :: (s.data ++ '\x22' :: rest) := by
    simp
  rw [this, parseStringLit.eq_def]
  simp only [if_pos rfl]
  rw [parseStrAux_append h [] rest]
  simp

theorem spanDig_natDigs (n : Nat) (rest : List Char) (hr : numTailOk rest) :
    spanDig (natDigs n ++ rest) = (natDigs n, rest) := by
  refine spanDig_append (natDigs_all_digit n) (fun c t hct => ?_)
  cases rest with
  | nil => simp at hct
  | cons c0 t0 =>
    obtain ⟨hc0, _⟩ := hr
    cases hct
    exact hc0

theorem parseNumTail_natDigs (neg : Bool) (n : Nat) (rest : List Char) (hr : numTailOk rest) :
    parseNumTail neg (natDigs n ++ rest)
      = some (.jint (if neg then -(n : Int) else (n : Int)), rest) := by
  rw [parseNumTail]
  rw [spanDig_natDigs n rest hr]
  simp only [if_neg (natDigs_ne_nil n)]
  cases rest with
  | nil => simp [digsVal_natDigs]
  | cons c0 t0 =>
    obtain ⟨_, hdot⟩ := hr
    simp [if_neg hdot, digsVal_natDigs]

theorem parseNumber_intChars (n : Int) (rest : List Char) (hr : numTailOk rest) :
    parseNumber (intChars n ++ rest) = some (.jint n, rest) := by
  by_cases hn : n < 0
  · rw [intChars, if_pos hn, List.cons_append, parseNumber, if_pos rfl,
        parseNumTail_natDigs true n.natAbs rest hr]
    have hv : -((n.natAbs : Int)) = n := by omega
    simp [hv]
    rw [abs_of_neg hn]
    ring
  · rw [intChars, if_neg hn]
    obtain ⟨d, ds, hds⟩ : ∃ d ds, natDigs n.toNat = d :: ds := by
      cases h : natDigs n.toNat with
      | nil => exact absurd h (natDigs_ne_nil _)
      | cons d ds => exact ⟨d, ds, rfl⟩
    have hdig : d.isDigit = true := natDigs_all_digit _ d (by rw [hds]; simp)
    have hnd : d ≠ '-' := by
      intro hc
      rw [hc] at hdig
      exact absurd hdig (by decide)
    rw [hds, List.cons_append, parseNumber]
    simp only [if_neg hnd]
    rw [← List.cons_append, ← hds, parseNumTail_natDigs false n.toNat rest hr]
    have hv : ((n.toNat : Int)) = n := by omega
    simp [hv]

/-- Clean string content of a scalar. -/
def jClean : JValue → Bool
  | .jstr s => s.data.all cleanChar
  | _ => true

/-- A scalar that is not a float (frame cells whose serialization is exact). -/
def noFloat : JValue → Bool
  | .jfloat _ _ => false
  | _ => true

def fieldClean (kv : String × JValue) : Bool :=
  kv.1.data.all cleanChar && jClean kv.2 && noFloat kv.2

def recordClean (r : JRecord) : Bool := r.all fieldClean

/-- Frames whose serialization round-trips exactly: nonempty records with
escape-free text and no float cells. -/
def dataCleanB (df : JData) : Bool := df.all (fun r => !r.isEmpty && recordClean r)

theorem beq_false_of_ne {p c : Char} (h : p ≠ c) : (p == c) = false := by
  cases hb : (p == c) with
  | false => rfl
  | true => exact absurd (by simpa using hb) h

theorem first_char_false (p : Char) (hp : p.isDigit = false) (hpm : p ≠ '-')
    {c : Char} (hc : c.isDigit = true ∨ c = '-') : (p == c) = false := by
  rcases hc with hd | hm
  · exact beq_false_of_not_digit hp hd
  · rw [hm]; exact beq_false_of_ne hpm

theorem intChars_head (n : Int) :
    ∃ c t, intChars n = c :: t ∧ (c.isDigit = true ∨ c = '-') := by
  rw [intChars]
  split
  · exact ⟨'-', _, rfl, Or.inr rfl⟩
  · obtain ⟨d, ds, hds⟩ : ∃ d ds, natDigs n.toNat = d :: ds := by
      cases h : natDigs n.toNat with
      | nil => exact absurd h (natDigs_ne_nil _)
      | cons d ds => exact ⟨d, ds, rfl⟩
    exact ⟨d, ds, hds, Or.inl (natDigs_all_digit _ d (by rw [hds]; simp))⟩

theorem numTailOk_cons {c : Char} {t : List Char} (h1 : c.isDigit = false)
    (h2 : c ≠ '.') : numTailOk (c :: t) := by
  unfold numTailOk
  exact ⟨h1, h2⟩

theorem parseScalar_print (v : JValue) (rest : List Char)
    (hc : jClean v = true) (hf : noFloat v = true) (hr : numTailOk rest) :
    parseScalar (printJValue v ++ rest) = some (v, rest) := by
  cases v with
  | jnull => rfl
  | jbool b => cases b <;> rfl
  | jfloat m e => exact absurd hf (by simp [noFloat])
  | jstr s =>
    have hcl : ∀ c ∈ s.data, cleanChar c = true := by
      simpa [jClean, List.all_eq_true] using hc
    have h1 : startsWithL ['n', 'u', 'l', 'l']
        (('\x22' :: (escJ s.data ++ ['\x22'])) ++ rest) = false := rfl
    have h2 : startsWithL ['t', 'r', 'u', 'e']
        (('\x22' :: (escJ s.data ++ ['\x22'])) ++ rest) = false := rfl
    have h3 : startsWithL ['f', 'a', 'l', 's', 'e']
        (('\x22' :: (escJ s.data ++ ['\x22'])) ++ rest) = false := rfl
    have h4 : startsWithL ['\x22']
        (('\x22' :: (escJ s.data ++ ['\x22'])) ++ rest) = true := rfl
    rw [printJValue, parseScalar, h1, h2, h3, h4]
    simp only [Bool.false_eq_true, if_false, if_true]
    rw [parseStringLit_print s rest hcl]
    rfl
  | jint n =>
    obtain ⟨c, t, hct, hcd⟩ := intChars_head n
    have h1 : startsWithL ['n', 'u', 'l', 'l'] (c :: (t ++ rest)) = false :=
      startsWithL_cons_false (first_char_false 'n' (by decide) (by decide) hcd)
    have h2 : startsWithL ['t', 'r', 'u', 'e'] (c :: (t ++ rest)) = false :=
      startsWithL_cons_false (first_char_false 't' (by decide) (by decide) hcd)
    have h3 : startsWithL ['f', 'a', 'l', 's', 'e'] (c :: (t ++ rest)) = false :=
      startsWithL_cons_false (first_char_false 'f' (by decide) (by decide) hcd)
    have h4 : startsWithL ['\x22'] (c :: (t ++ rest)) = false :=
      startsWithL_cons_false (first_char_false '\x22' (by decide) (by decide) hcd)
    rw [printJValue, hct, List.cons_append, parseScalar, h1, h2, h3, h4]
    simp only [Bool.false_eq_true, if_false]
    rw [← List.cons_append, ← hct]
    exact parseNumber_intChars n rest hr

theorem printField_ne_nil (kv : String × JValue) : printField kv ≠ [] := by
  simp [printField]

theorem printRecord_ne_nil (r : JRecord) : printRecord r ≠ [] := by
  simp [printRecord]

theorem joinComma_length {L : List (List Char)} (h : ∀ x ∈ L, x ≠ []) :
    L.length ≤ (joinComma L).length := by
  induction L with
  | nil => simp [joinComma]
  | cons x xs ih =>
    cases xs with
    | nil =>
      have : x ≠ [] := h x (by simp)
      have := List.length_pos.mpr this
      simpa [joinComma] using this
    | cons y ys =>
      have hx : x ≠ [] := h x (by simp)
      have hlen := ih (fun z hz => h z (by simp [hz]))
      have hxp := List.length_pos.mpr hx
      simp only [joinComma, List.length_append, List.length_cons] at *
      omega

theorem joinComma_cons_cons (c : Char) (W : List Char) (xs : List (List Char)) :
    ∃ T, joinComma ((c :: W) :: xs) = c :: T := by
  cases xs with
  | nil => exact ⟨W, rfl⟩
  | cons y ys => exact ⟨W ++ ',' :: joinComma (y :: ys), by simp [joinComma]⟩

theorem parseFieldsAux_print :
    ∀ (fs : JRecord) (fuel : Nat) (acc : JRecord) (rest : List Char),
      fs ≠ [] → fs.length ≤ fuel → recordClean fs = true →
      parseFieldsAux fuel (joinComma (fs.map printField) ++ '\x7d' :: rest) acc
        = some (acc ++ fs, rest) := by
  intro fs
  induction fs with
  | nil => intro fuel acc rest hne; exact absurd rfl hne
  | cons kv fs ih =>
    intro fuel acc rest _ hfuel hcl
    obtain ⟨k, v⟩ := kv
    obtain ⟨f, rfl⟩ : ∃ f, fuel = f + 1 := ⟨fuel - 1, by simp at hfuel; omega⟩
    have hfc : fieldClean (k, v) = true ∧ recordClean fs = true := by
      simpa [recordClean] using hcl
    have hkey : ∀ c ∈ k.data, cleanChar c = true := by
      have := hfc.1
      simp only [fieldClean, Bool.and_eq_true, List.all_eq_true] at this
      exact this.1.1
    have hjc : jClean v = true ∧ noFloat v = true := by
      have := hfc.1
      simp only [fieldClean, Bool.and_eq_true] at this
      exact ⟨this.1.2, this.2⟩
    cases fs with
    | nil =>
      have hshape : joinComma ([(k, v)].map printField) ++ '\x7d' :: rest
          = ('\x22' :: (escJ k.data ++ ['\x22'])) ++ (':' :: (printJValue v ++ '\x7d' :: rest)) := by
        simp [joinComma, printField]
      rw [hshape, parseFieldsAux]
      rw [parseStringLit_print k (':' :: (printJValue v ++ '\x7d' :: rest)) hkey]
      simp only [if_pos rfl]
      rw [parseScalar_print v ('\x7d' :: rest) hjc.1 hjc.2
        (numTailOk_cons (by decide) (by decide))]
      simp
    | cons f2 fs2 =>
      have hshape : joinComma (((k, v) :: f2 :: fs2).map printField) ++ '\x7d' :: rest
          = ('\x22' :: (escJ k.data ++ ['\x22']))
              ++ (':' :: (printJValue v
                ++ ',' :: (joinComma ((f2 :: fs2).map printField) ++ '\x7d' :: rest))) := by
        simp [joinComma, printField]
      rw [hshape, parseFieldsAux]
      rw [parseStringLit_print k _ hkey]
      simp only [if_pos rfl]
      rw [parseScalar_print v _ hjc.1 hjc.2 (numTailOk_cons (by decide) (by decide))]
      simp only [if_pos rfl, if_true]
      rw [ih f (acc ++ [(k, v)]) rest (by simp) (by simp at hfuel ⊢; omega) hfc.2]
      simp

theorem parseRecordJ_print (r : JRecord) (rest : List Char)
    (hne : r ≠ []) (hcl : recordClean r = true) :
    parseRecordJ (printRecord r ++ rest) = some (r, rest) := by
  obtain ⟨kv, r2, rfl⟩ : ∃ kv r2, r = kv :: r2 := by
    cases r with
    | nil => exact absurd rfl hne
    | cons kv r2 => exact ⟨kv, r2, rfl⟩
  have hpf : ∃ W, printField kv = '\x22' :: W := by
    obtain ⟨k, v⟩ := kv
    exact ⟨escJ k.data ++ ['\x22'] ++ ':' :: printJValue v, by simp [printField]⟩
  obtain ⟨W, hW⟩ := hpf
  obtain ⟨T, hT⟩ := joinComma_cons_cons '\x22' W (r2.map printField)
  have hmap : (kv :: r2).map printField = ('\x22' :: W) :: r2.map printField := by
    simp [hW]
  have hshape : printRecord (kv :: r2) ++ rest
      = '\x7b' :: ('\x22' :: (T ++ '\x7d' :: rest)) := by
    rw [printRecord, hmap, hT]
    simp
  rw [hshape, parseRecordJ]
  simp only [if_pos rfl]
  rw [if_neg (by decide : ¬('\x22' = '\x7d'))]
  have hback : '\x22' :: (T ++ '\x7d' :: rest)
      = joinComma ((kv :: r2).map printField) ++ '\x7d' :: rest := by
    rw [hmap, hT]
    simp
  rw [hback]
  refine parseFieldsAux_print (kv :: r2) _ [] rest hne ?_ hcl
  have hlen : (kv :: r2).length ≤ (joinComma ((kv :: r2).map printField)).length := by
    have := joinComma_length (L := (kv :: r2).map printField)
      (fun x hx => by
        obtain ⟨kv2, _, hkv2⟩ := List.mem_map.mp hx
        exact hkv2 ▸ printField_ne_nil kv2)
    simpa using this
  simp only [List.length_cons] at hlen
  simp only [List.length_append, List.length_cons]
  omega

theorem parseRecordsAux_print :
    ∀ (dfs : JData) (fuel : Nat) (acc : JData) (rest : List Char),
      dfs ≠ [] → dfs.length ≤ fuel → dataCleanB dfs = true →
      parseRecordsAux fuel (joinComma (dfs.map printRecord) ++ ']' :: rest) acc
        = some (acc ++ dfs, rest) := by
  intro dfs
  induction dfs with
  | nil => intro fuel acc rest hne; exact absurd rfl hne
  | cons r dfs ih =>
    intro fuel acc rest _ hfuel hcl
    obtain ⟨f, rfl⟩ : ∃ f, fuel = f + 1 := ⟨fuel - 1, by simp at hfuel; omega⟩
    have hrc : (!r.isEmpty && recordClean r) = true ∧ dataCleanB dfs = true := by
      simpa [dataCleanB] using hcl
    have hrne : r ≠ [] := by
      have := hrc.1
      simp only [Bool.and_eq_true, Bool.not_eq_true', List.isEmpty_eq_false] at this
      exact this.1
    have hrcl : recordClean r = true := by
      have := hrc.1
      simp only [Bool.and_eq_true] at this
      exact this.2
    cases dfs with
    | nil =>
      have hshape : joinComma ([r].map printRecord) ++ ']' :: rest
          = printRecord r ++ ']' :: rest := by
        simp [joinComma]
      rw [hshape, parseRecordsAux, parseRecordJ_print r (']' :: rest) hrne hrcl]
      simp
    | cons r2 dfs2 =>
      have hshape : joinComma ((r :: r2 :: dfs2).map printRecord) ++ ']' :: rest
          = printRecord r
              ++ ',' :: (joinComma ((r2 :: dfs2).map printRecord) ++ ']' :: rest) := by
        simp [joinComma]
      rw [hshape, parseRecordsAux, parseRecordJ_print r _ hrne hrcl]
      simp only [if_pos rfl, if_true]
      rw [ih f (acc ++ [r]) rest (by simp) (by simp at hfuel ⊢; omega) hrc.2]
      simp

/-- The round trip: `json.loads` recovers exactly the frame that
`to_json(orient='records')` serialized. -/
theorem jsonLoads_print (df : JData) (h : dataCleanB df = true) :
    jsonLoadsL (printRecords df) = .ok df := by
  cases df with
  | nil => rfl
  | cons r dfs =>
    have hrne : r ≠ [] := by
      simp only [dataCleanB, List.all_cons, Bool.and_eq_true, Bool.not_eq_true',
        List.isEmpty_eq_false] at h
      exact h.1.1
    obtain ⟨kv, rr, rfl⟩ : ∃ kv rr, r = kv :: rr := by
      cases r with
      | nil => exact absurd rfl hrne
      | cons kv rr => exact ⟨kv, rr, rfl⟩
    obtain ⟨T, hT⟩ := joinComma_cons_cons '\x7b'
      (joinComma ((kv :: rr).map printField) ++ ['\x7d']) (dfs.map printRecord)
    have hmap : ((kv :: rr) :: dfs).map printRecord
        = ('\x7b' :: (joinComma ((kv :: rr).map printField) ++ ['\x7d'])) :: dfs.map printRecord := by
      simp [printRecord]
    have hshape : printRecords ((kv :: rr) :: dfs)
        = '[' :: ('\x7b' :: (T ++ [']'])) := by
      rw [printRecords, hmap, hT]
      simp
    rw [hshape, jsonLoadsL]
    have hdw : List.dropWhile pyIsSpace ('[' :: ('\x7b' :: (T ++ [']'])))
        = '[' :: ('\x7b' :: (T ++ [']'])) := by
      rw [List.dropWhile_cons, if_neg (by decide)]
    rw [hdw]
    simp only [if_pos rfl]
    rw [if_neg (by decide : ¬('\x7b' = ']'))]
    have hback : '\x7b' :: (T ++ [']'])
        = joinComma (((kv :: rr) :: dfs).map printRecord) ++ ']' :: [] := by
      rw [hmap, hT]
      simp
    rw [hback]
    have hlen : ((kv :: rr) :: dfs).length
        ≤ (joinComma (((kv :: rr) :: dfs).map printRecord)).length := by
      have := joinComma_length (L := ((kv :: rr) :: dfs).map printRecord)
        (fun x hx => by
          obtain ⟨rr2, _, hrr2⟩ := List.mem_map.mp hx
          exact hrr2 ▸ printRecord_ne_nil rr2)
      simpa using this
    rw [parseRecordsAux_print ((kv :: rr) :: dfs) _ [] [] (by simp)
      (by simp only [List.length_append, List.length_cons] at hlen ⊢; omega) h]
    simp

/-! ## Claims -/

/-- C1: every Execute child-run failure is reported as its own cause.  The
timeout raised at the fixed 30-second budget yields the timeout-specific
message; a nonzero exit (in particular a child that raises, which CPython
turns into exit code 1) yields the process-failure message, never the timeout
or parse-failure one; stdout lacking a sentinel yields the protocol-absence
message; malformed JSON between the sentinels yields the parse-failure
message; and the four causes are pairwise distinct. -/
theorem claim_C1 :
    EXEC_TIMEOUT_SECONDS = 30
    ∧ resultCause (execute_python_code_in_kernel .procTimeout) = some .timedOut
    ∧ (∀ (rc : Int) (out errOut : String), rc ≠ 0 →
        resultCause (execute_python_code_in_kernel (.exited rc out errOut))
          = some .processFailure)
    ∧ (∀ (out errOut : String),
        subFind startMarker out.data = none ∨ subFind endMarker out.data = none →
        resultCause (execute_python_code_in_kernel (.exited 0 out errOut))
          = some .protocolAbsent)
    ∧ (∀ (out errOut : String) (i j : Nat) (e : String),
        subFind startMarker out.data = some i →
        subFind endMarker out.data = some j →
        jsonLoadsL (stripL (pySlice out.data (i + 18 + 1) j)) = .error e →
        resultCause (execute_python_code_in_kernel (.exited 0 out errOut))
          = some .parseFailure)
    ∧ (FailCause.processFailure ≠ FailCause.timedOut
        ∧ FailCause.processFailure ≠ FailCause.parseFailure
        ∧ FailCause.processFailure ≠ FailCause.protocolAbsent
        ∧ FailCause.timedOut ≠ FailCause.parseFailure
        ∧ FailCause.timedOut ≠ FailCause.protocolAbsent
        ∧ FailCause.parseFailure ≠ FailCause.protocolAbsent) := by
  refine ⟨rfl, by decide, ?_, ?_, ?_, by decide⟩
  · intro rc out errOut hrc
    simp only [execute_python_code_in_kernel, if_pos hrc]
    show classifyMsg ("Code execution failed: " ++ errOut) = some .processFailure
    have e1 : startsWithL "Code execution timed out".data
        ("Code execution failed: " ++ errOut).data = false := rfl
    have e2 : startsWithL "Code execution failed: ".data
        ("Code execution failed: " ++ errOut).data = true := rfl
    rw [classifyMsg, e1, e2]
    simp
  · intro out errOut h
    simp only [execute_python_code_in_kernel,
      if_neg (by simp : ¬((0 : Int) ≠ 0))]
    rcases h with h | h
    · rw [h]
      cases hj : subFind endMarker out.data <;> rfl
    · cases hi : subFind startMarker out.data <;> rw [h] <;> rfl
  · intro out errOut i j e h1 h2 h3
    simp only [execute_python_code_in_kernel,
      if_neg (by simp : ¬((0 : Int) ≠ 0)), h1, h2, h3]
    show classifyMsg ("Failed to parse JSON result: " ++ e) = some .parseFailure
    have e1 : startsWithL "Code execution timed out".data
        ("Failed to parse JSON result: " ++ e).data = false := rfl
    have e2 : startsWithL "Code execution failed: ".data
        ("Failed to parse JSON result: " ++ e).data = false := rfl
    have e3 : startsWithL "Failed to parse JSON result: ".data
        ("Failed to parse JSON result: " ++ e).data = true := rfl
    rw [classifyMsg, e1, e2, e3]
    simp

/-- Witness for C1 at concrete children: a raising child (exit code 1 with a
traceback), a child whose output lacks the sentinels, and a child that frames
malformed JSON. -/
theorem claim_C1_witness :
    resultCause (execute_python_code_in_kernel
        (.exited 1 "" "ZeroDivisionError: division by zero")) = some .processFailure
    ∧ resultCause (execute_python_code_in_kernel
        (.exited 0 "ERROR: No ans_df found\n" "")) = some .protocolAbsent
    ∧ resultCause (execute_python_code_in_kernel
        (.exited 0 "SUCCESS_JSON_START\nnot json\nSUCCESS_JSON_END\n" ""))
      = some .parseFailure := by
  refine ⟨claim_C1.2.2.1 1 _ _ (by decide), ?_, ?_⟩
  · exact claim_C1.2.2.2.1 _ "" (Or.inl (by decide))
  · exact claim_C1.2.2.2.2.1 _ "" 0 28 "Expecting value" (by decide) (by decide) rfl

set_option maxRecDepth 8192 in
/-- C3: json_to_html_table renders the empty record list as the fixed
"no data" notice, and renders the one-record list with fields a=1, b=2.5 as a
table whose header cells are a and b and whose single data row holds "1" (an
integer through the thousands-separator format) and "2.50" (a fractional
float through the two-decimal format); a large integer indeed receives
thousands separators and an integral float re-renders as an integer. -/
theorem claim_C3 :
    json_to_html_table [] = "<p>No data to display</p>"
    ∧ json_to_html_table [[("a", .jint 1), ("b", .jfloat 25 1)]]
      = "\n    <table class=\x22min-w-full divide-y divide-gray-200\x22>\n        <thead class=\x22bg-gray-50\x22>\n            <tr>\n    <th class=\x22px-6 py-3 text-left text-xs font-medium text-gray-500 uppercase tracking-wider\x22>a</th>\n<th class=\x22px-6 py-3 text-left text-xs font-medium text-gray-500 uppercase tracking-wider\x22>b</th>\n\n            </tr>\n        </thead>\n        <tbody class=\x22bg-white divide-y divide-gray-200\x22>\n    <tr>\n<td class=\x22px-6 py-4 whitespace-nowrap text-sm text-gray-900\x22>1</td>\n<td class=\x22px-6 py-4 whitespace-nowrap text-sm text-gray-900\x22>2.50</td>\n</tr>\n\n        </tbody>\n    </table>\n    "
    ∧ renderCell (some (.jint 1234567)) = "1,234,567"
    ∧ renderCell (some (.jfloat 70 1)) = "7" := by
  refine ⟨rfl, ?_, by decide, by decide⟩
  rfl

/-- C6: the generation call never raises past its boundary.  A missing api
key yields the fallback built from the key-missing message; a failing call
yields the fallback built from the exception text; a successful call returns
the raw response text.  The fallback is exactly the quoted print statement
around the quote-escaped message, and stays one line whenever the message is
one line. -/
theorem claim_C6 :
    (∀ call, _generate_response none call = fallbackSource GEMINI_KEY_ERROR)
    ∧ (∀ k e, _generate_response (some k) (.error e) = fallbackSource e)
    ∧ (∀ k t, _generate_response (some k) (.ok t) = t)
    ∧ (∀ e, fallbackSource e
        = "print(\x27Error generating code: " ++ escapeSingleQuotes e ++ "\x27)")
    ∧ (∀ e, '\n' ∉ e.data → '\n' ∉ (fallbackSource e).data) := by
  refine ⟨fun _ => rfl, fun _ _ => rfl, fun _ _ => rfl, fun _ => rfl, ?_⟩
  intro e he
  have hmem : ∀ c, c ∈ escQ e.data → c ∈ e.data ∨ c = '\\' ∨ c = '\x27' := by
    intro c
    induction e.data with
    | nil => simp [escQ]
    | cons d t ih =>
      rw [escQ]
      split
      · intro hc
        rcases List.mem_cons.mp hc with h1 | hc2
        · exact Or.inr (Or.inl h1)
        · rcases List.mem_cons.mp hc2 with h1 | hc3
          · exact Or.inr (Or.inr h1)
          · rcases ih hc3 with h1 | h1
            · exact Or.inl (by simp [h1])
            · exact Or.inr h1
      · intro hc
        rcases List.mem_cons.mp hc with h1 | hc2
        · exact Or.inl (by simp [h1])
        · rcases ih hc2 with h1 | h1
          · exact Or.inl (by simp [h1])
          · exact Or.inr h1
  intro hmain
  have hdata : (fallbackSource e).data
      = "print(\x27Error generating code: ".data ++ escQ e.data ++ "\x27)".data := rfl
  rw [hdata] at hmain
  rcases List.mem_append.mp hmain with hx | hx
  · rcases List.mem_append.mp hx with hx2 | hx2
    · exact absurd hx2 (by decide)
    · rcases hmem '\n' hx2 with h1 | h1 | h1 <;> simp_all
  · exact absurd hx (by decide)

/-- C7: for every bucket other than the designated default bucket, delete
returns the 403 forbidden error, performs no provider call and leaves the
storage unchanged; against the default bucket a missing file yields the 404
and an existing file is deleted. -/
theorem claim_C7 (DEFAULT_BUCKET bucket_name file_name : String) (st : GcsState) :
    (bucket_name ≠ DEFAULT_BUCKET →
      delete_file DEFAULT_BUCKET bucket_name file_name st
        = (.error ⟨403, "File deletion not supported for public buckets. Use authenticated access for write operations."⟩,
            st, []))
    ∧ (bucket_name = DEFAULT_BUCKET → blobExists st bucket_name file_name = false →
      delete_file DEFAULT_BUCKET bucket_name file_name st
        = (.error ⟨404, "File \x27" ++ file_name ++ "\x27 not found"⟩, st,
            [.existsCheck bucket_name file_name]))
    ∧ (bucket_name = DEFAULT_BUCKET → blobExists st bucket_name file_name = true →
      delete_file DEFAULT_BUCKET bucket_name file_name st
        = (.ok ("File \x27" ++ file_name ++ "\x27 deleted successfully"),
            removeBlob st bucket_name file_name,
            [.existsCheck bucket_name file_name, .deleteBlob bucket_name file_name])) := by
  refine ⟨fun hne => ?_, fun heq hmiss => ?_, fun heq hhit => ?_⟩
  · rw [delete_file, if_neg hne]
  · rw [delete_file, if_pos heq, if_neg (by simp [hmiss])]
  · rw [delete_file, if_pos heq, if_pos hhit]

/-- Witness for C7: a concrete store where a foreign bucket is refused
untouched, and the default bucket serves the 404 and the deletion. -/
theorem claim_C7_witness :
    delete_file "ai-analysis-default-bucket" "sample-bucket-v2901" "a.csv"
        ⟨[("ai-analysis-default-bucket", ["a.csv"]), ("sample-bucket-v2901", ["a.csv"])]⟩
      = (.error ⟨403, "File deletion not supported for public buckets. Use authenticated access for write operations."⟩,
          ⟨[("ai-analysis-default-bucket", ["a.csv"]), ("sample-bucket-v2901", ["a.csv"])]⟩, [])
    ∧ delete_file "ai-analysis-default-bucket" "ai-analysis-default-bucket" "b.csv"
        ⟨[("ai-analysis-default-bucket", ["a.csv"])]⟩
      = (.error ⟨404, "File \x27b.csv\x27 not found"⟩,
          ⟨[("ai-analysis-default-bucket", ["a.csv"])]⟩,
          [.existsCheck "ai-analysis-default-bucket" "b.csv"])
    ∧ delete_file "ai-analysis-default-bucket" "ai-analysis-default-bucket" "a.csv"
        ⟨[("ai-analysis-default-bucket", ["a.csv"])]⟩
      = (.ok "File \x27a.csv\x27 deleted successfully",
          ⟨[("ai-analysis-default-bucket", [])]⟩,
          [.existsCheck "ai-analysis-default-bucket" "a.csv",
            .deleteBlob "ai-analysis-default-bucket" "a.csv"]) := by
  refine ⟨?_, ?_, ?_⟩
  · exact (claim_C7 _ _ _ _).1 (by decide)
  · exact (claim_C7 _ _ _ _).2.1 rfl (by decide)
  · have h := (claim_C7 "ai-analysis-default-bucket" "ai-analysis-default-bucket" "a.csv"
      ⟨[("ai-analysis-default-bucket", ["a.csv"])]⟩).2.2 rfl (by decide)
    rw [h]
    rfl

/-- A two-column frame with one data row, refuting C8 as stated: the request
`rows = -1` reaches `df.head(-1)` (drop the last row) and
`min(-1, 1) = -1`, so "at most min(requested rows, N) records" fails
(`0 ≤ -1` is false). -/
def dfC8 : PDataFrame :=
  ⟨[⟨"h1", "int64"⟩, ⟨"h2", "object"⟩], [[("h1", "1"), ("h2", "x")]]⟩

/-- Counterexample to C8 as stated: with the 1-row frame and requested row
count -1 the preview returns 0 records, which is not at most
`min(-1, 1) = -1`; `rows` is a plain int query parameter, so negative values
reach the handler. -/
theorem claim_C8_counterexample :
    ¬ (((preview_csv dfC8 (-1)).rows.length : Int)
        ≤ pyMin (-1) (dfC8.rows.length : Int)) := by decide

/-- C8 (amended: for nonnegative requested row counts): the preview returns
column descriptors for exactly the frame's header columns, each with its
mapped type; the record list has length `min(rows, N)` (hence at most that);
`rowsShown = min(rows, N)`; and `totalRows = N`. -/
theorem claim_C8 (df : PDataFrame) (rows : Int) (h : 0 ≤ rows) :
    (preview_csv df rows).columns
        = df.cols.map (fun c => ⟨c.name, dtypeMapped c.dtype, c.dtype⟩)
    ∧ ((preview_csv df rows).rows.length : Int) = pyMin rows (df.rows.length : Int)
    ∧ ((preview_csv df rows).rows.length : Int) ≤ pyMin rows (df.rows.length : Int)
    ∧ (preview_csv df rows).rowsShown = pyMin rows (df.rows.length : Int)
    ∧ (preview_csv df rows).totalRows = df.rows.length := by
  have hlen : (preview_csv df rows).rows.length = min rows.toNat df.rows.length := by
    simp [preview_csv, pandas_head, if_pos h, List.length_take]
  have hmin : ((min rows.toNat df.rows.length : Nat) : Int)
      = pyMin rows (df.rows.length : Int) := by
    rw [pyMin]
    split <;> omega
  refine ⟨rfl, ?_, ?_, ?_, rfl⟩
  · rw [hlen, hmin]
  · rw [hlen, hmin]
  · rw [show (preview_csv df rows).rowsShown = pyMin rows (df.rows.length : Int) from rfl]

/-- Witness for C8 at a concrete frame and request. -/
theorem claim_C8_witness :
    (preview_csv dfC8 10).columns
        = [⟨"h1", "int", "int64"⟩, ⟨"h2", "string", "object"⟩]
    ∧ (preview_csv dfC8 10).rowsShown = 1
    ∧ (preview_csv dfC8 10).totalRows = 1
    ∧ ((preview_csv dfC8 10).rows.length : Int) = 1 := by
  obtain ⟨h1, h2, _, h4, h5⟩ := claim_C8 dfC8 10 (by decide)
  refine ⟨?_, ?_, ?_, ?_⟩
  · rw [h1]; decide
  · rw [h4]; decide
  · rw [h5]; decide
  · rw [h2]; decide

/-- Lowercase ASCII letter, ASCII digit, or underscore, as code points. -/
def allowedChar (c : Char) : Prop :=
  (97 ≤ c.toNat ∧ c.toNat ≤ 122) ∨ (48 ≤ c.toNat ∧ c.toNat ≤ 57) ∨ c.toNat = 95

theorem toLower_of_not_upper {c : Char} (h : ¬(65 ≤ c.toNat ∧ c.toNat ≤ 90)) :
    c.toLower = c := by
  rw [Char.toLower.eq_def]
  simp only []
  rw [if_neg (by omega)]

theorem toLower_toNat_of_upper {c : Char} (h1 : 65 ≤ c.toNat) (h2 : c.toNat ≤ 90) :
    c.toLower.toNat = c.toNat + 32 := by
  rw [Char.toLower.eq_def]
  simp only []
  rw [if_pos (by omega), Char.ofNat,
    dif_pos (by exact Or.inl (by omega) : (c.toNat + 32).isValidChar)]
  rfl

/-- The sanitize-then-lowercase step always lands in the identifier
alphabet. -/
theorem sanitize_toLower_allowed (c : Char) : allowedChar (sanitizeChar c).toLower := by
  by_cases h : (c.isAlpha || c.isDigit) = true
  · rw [sanitizeChar, if_pos h]
    have hor : c.isAlpha = true ∨ c.isDigit = true := by simpa using h
    rcases hor with ha | hd
    · have hor2 : c.isUpper = true ∨ c.isLower = true := by
        simpa [Char.isAlpha] using ha
      rcases hor2 with hu | hl
      · have hb : 65 ≤ c.toNat ∧ c.toNat ≤ 90 := by
          simp only [Char.isUpper, Bool.and_eq_true, decide_eq_true_eq] at hu
          exact ⟨hu.1, hu.2⟩
        have := toLower_toNat_of_upper hb.1 hb.2
        exact Or.inl (by omega)
      · have hb : 97 ≤ c.toNat ∧ c.toNat ≤ 122 := by
          simp only [Char.isLower, Bool.and_eq_true, decide_eq_true_eq] at hl
          exact ⟨hl.1, hl.2⟩
        rw [toLower_of_not_upper (by omega)]
        exact Or.inl hb
    · have hb : 48 ≤ c.toNat ∧ c.toNat ≤ 57 := by
        simp only [Char.isDigit, Bool.and_eq_true, decide_eq_true_eq] at hd
        exact ⟨hd.1, hd.2⟩
      rw [toLower_of_not_upper (by omega)]
      exact Or.inr (Or.inl hb)
  · rw [sanitizeChar, if_neg h]
    exact Or.inr (Or.inr (by decide))

/-- Counterexample to C9 as stated: the mapping is not total.  For the
filename ".csv" the stem is empty, `variable_name[0]` raises IndexError, and
the request fails — no identifier is produced. -/
theorem claim_C9_counterexample : variable_name_of ".csv" = none := rfl

/-- C9 (amended: for filenames with a nonempty stem): the mapping succeeds
and yields a nonempty identifier of lowercase letters, digits and
underscores that does not start with a digit; when the sanitized-lowercased
stem starts with a digit the fixed `df_` prefix is prepended; and the
provenance tag alone decides the backing bucket (`uploaded`, or absent,
selects the default bucket, anything else the file's own bucket field). -/
theorem claim_C9 (filename : String) (h : pyStem filename ≠ []) :
    ∃ v, variable_name_of filename = some v
      ∧ v.data ≠ []
      ∧ (∀ c ∈ v.data, allowedChar c)
      ∧ (∀ c t, v.data = c :: t → c.isDigit = false)
      ∧ (∀ c t, ((pyStem filename).map sanitizeChar).map Char.toLower = c :: t →
          c.isDigit = true → v = "df_" ++ String.mk (c :: t))
      ∧ (∀ (DB : String) (bfield : Option String),
          bucket_for DB (some "uploaded") bfield = DB
          ∧ bucket_for DB none bfield = DB
          ∧ ∀ src, src ≠ "uploaded" → bucket_for DB (some src) bfield = bfield.getD DB) := by
  obtain ⟨c, t, heq⟩ : ∃ c t,
      ((pyStem filename).map sanitizeChar).map Char.toLower = c :: t := by
    cases hm : ((pyStem filename).map sanitizeChar).map Char.toLower with
    | nil => simp at hm; exact absurd hm h
    | cons c t => exact ⟨c, t, rfl⟩
  have hall : ∀ x ∈ ((pyStem filename).map sanitizeChar).map Char.toLower,
      allowedChar x := by
    intro x hx
    obtain ⟨y, hy, hyx⟩ := List.mem_map.mp hx
    obtain ⟨z, _, hzy⟩ := List.mem_map.mp hy
    rw [← hyx, ← hzy]
    exact sanitize_toLower_allowed z
  have hallct : ∀ x ∈ (c :: t), allowedChar x := heq ▸ hall
  have hbucket : ∀ (DB : String) (bfield : Option String),
      bucket_for DB (some "uploaded") bfield = DB
      ∧ bucket_for DB none bfield = DB
      ∧ ∀ src, src ≠ "uploaded" → bucket_for DB (some src) bfield = bfield.getD DB := by
    intro DB bfield
    refine ⟨rfl, rfl, fun src hsrc => ?_⟩
    rw [bucket_for, if_neg (by simpa using hsrc)]
  have hgoal : variable_name_of filename
      = some (if c.isDigit then "df_" ++ String.mk (c :: t) else String.mk (c :: t)) := by
    rw [variable_name_of, heq]
  by_cases hd : c.isDigit = true
  · refine ⟨"df_" ++ String.mk (c :: t), by rw [hgoal, if_pos hd], by simp, ?_, ?_, ?_, hbucket⟩
    · intro x hx
      have hx2 : x ∈ ('d' :: 'f' :: '_' :: (c :: t)) := by simpa using hx
      rcases List.mem_cons.mp hx2 with h1 | hx3
      · rw [h1]; exact Or.inl (by decide)
      rcases List.mem_cons.mp hx3 with h1 | hx4
      · rw [h1]; exact Or.inl (by decide)
      rcases List.mem_cons.mp hx4 with h1 | hx5
      · rw [h1]; exact Or.inr (Or.inr (by decide))
      · exact hallct x hx5
    · intro c0 t0 hct
      have hx : ("df_" ++ String.mk (c :: t)).data = 'd' :: 'f' :: '_' :: (c :: t) := rfl
      rw [hx] at hct
      injection hct with hc _
      rw [← hc]
      decide
    · intro c0 t0 hct _
      rw [heq] at hct
      injection hct with hc ht
      rw [hc, ht]
  · refine ⟨String.mk (c :: t), by rw [hgoal, if_neg hd], by simp, ?_, ?_, ?_, hbucket⟩
    · intro x hx
      exact hallct x (by simpa using hx)
    · intro c0 t0 hct
      have hx : (String.mk (c :: t)).data = c :: t := rfl
      rw [hx] at hct
      injection hct with hc _
      rw [← hc]
      simpa using hd
    · intro c0 t0 hct hd0
      rw [heq] at hct
      injection hct with hc _
      rw [← hc] at hd0
      exact absurd hd0 hd

/-- Witness for C9: a filename with spaces, dashes, inner dots and a leading
digit has a nonempty stem, maps through the theorem to a sanitized
identifier, and that identifier is the prefixed `df_2023_sales_data`. -/
theorem claim_C9_witness :
    pyStem "2023 Sales-Data.v2.csv" ≠ []
    ∧ (∃ v, variable_name_of "2023 Sales-Data.v2.csv" = some v
        ∧ v.data ≠ [] ∧ (∀ c ∈ v.data, allowedChar c))
    ∧ variable_name_of "2023 Sales-Data.v2.csv" = some "df_2023_sales_data" := by
  refine ⟨by decide, ?_, rfl⟩
  obtain ⟨v, hv, h2, h3, -⟩ := claim_C9 "2023 Sales-Data.v2.csv" (by decide)
  exact ⟨v, hv, h2, h3⟩

/-- Witness for C6 at concrete inputs: missing key, a failing call, a
successful call, and the one-line property at a one-line message. -/
theorem claim_C6_witness :
    _generate_response none (.ok "x = 1") = fallbackSource GEMINI_KEY_ERROR
    ∧ _generate_response (some "k") (.error "429 quota exceeded")
        = fallbackSource "429 quota exceeded"
    ∧ _generate_response (some "k") (.ok "ans_df = races.head()") = "ans_df = races.head()"
    ∧ '\n' ∉ (fallbackSource "429 quota exceeded").data :=
  ⟨claim_C6.1 _, claim_C6.2.1 "k" _, claim_C6.2.2.1 "k" _,
    claim_C6.2.2.2.2 "429 quota exceeded" (by decide)⟩

/-! ## Session usability (C4) -/

/-- C4: a session is usable only while its active flag is set and the
current instant is before its expiry.  Lookup by token returns only rows with
`is_active = 1` and a future `expires_at`; after logout the same token finds
nothing; and when every row carrying the token's hash is past expiry the
lookup and verify both fail even if the flag was never cleared. -/
theorem claim_C4 :
    (∀ (db : Db) (token : String) (now : Nat) (s : SessionRow),
        find_by_token db token now = some s →
        s.is_active = 1 ∧ now < s.expires_at)
    ∧ (∀ (db : Db) (token : String) (now : Nat),
        find_by_token (logout db token) token now = none)
    ∧ (∀ (db : Db) (token : String) (now : Nat),
        (∀ s ∈ db.sessions, s.token_hash = sha256hex token → s.expires_at ≤ now) →
        find_by_token db token now = none
        ∧ verify db token now = .error ⟨401, "Invalid or expired token"⟩) := by
  refine ⟨?_, ?_, ?_⟩
  · intro db token now s h
    have hp := List.find?_some h
    simp only [Bool.and_eq_true, beq_iff_eq, decide_eq_true_eq] at hp
    exact ⟨hp.1.2, hp.2⟩
  · intro db token now
    rw [find_by_token]
    refine List.find?_eq_none.mpr ?_
    intro x hx
    simp only [logout, List.mem_map] at hx
    obtain ⟨s, _, hsx⟩ := hx
    by_cases hh : s.token_hash = sha256hex token
    · rw [← hsx, if_pos hh]
      simp
    · rw [← hsx, if_neg hh]
      simp [hh]
  · intro db token now h
    have hnone : find_by_token db token now = none := by
      rw [find_by_token]
      refine List.find?_eq_none.mpr ?_
      intro s hs
      by_cases hh : s.token_hash = sha256hex token
      · have := h s hs hh
        simp only [Bool.and_eq_true, beq_iff_eq, decide_eq_true_eq, not_and]
        omega
      · simp [hh]
    refine ⟨hnone, ?_⟩
    rw [verify.eq_def, hnone]

/-- Witness for C4: one active unexpired session is returned; its token fails
lookup right after logout; and an expired session with its flag still set
fails verify. -/
theorem claim_C4_witness :
    find_by_token (logout ⟨[], [⟨1, 1, sha256hex "tokA", 700, 1⟩]⟩ "tokA") "tokA" 600 = none
    ∧ (find_by_token ⟨[], [⟨1, 1, sha256hex "tokB", 500, 1⟩]⟩ "tokB" 600 = none
        ∧ verify ⟨[], [⟨1, 1, sha256hex "tokB", 500, 1⟩]⟩ "tokB" 600
          = .error ⟨401, "Invalid or expired token"⟩)
    ∧ (find_by_token ⟨[], [⟨1, 1, sha256hex "tokC", 700, 1⟩]⟩ "tokC" 600
        = some ⟨1, 1, sha256hex "tokC", 700, 1⟩
      ∧ (1 : Nat) = 1 ∧ (600 : Nat) < 700) := by
  refine ⟨claim_C4.2.1 _ "tokA" 600, claim_C4.2.2 _ "tokB" 600 ?_, rfl, ?_⟩
  · intro s hs hh
    simp only [List.mem_singleton] at hs
    rw [hs]
    decide
  · exact claim_C4.1 ⟨[], [⟨1, 1, sha256hex "tokC", 700, 1⟩]⟩ "tokC" 600 _ rfl

/-! ## Register / login round trip (C5) -/

theorem find?_append_of_none {α : Type} {p : α → Bool} {l1 l2 : List α}
    (h : l1.find? p = none) : (l1 ++ l2).find? p = l2.find? p := by
  rw [List.find?_append, h, Option.none_or]

theorem sha256hex_inj {a b : String} (h : sha256hex a = sha256hex b) : a = b := by
  have hd := congrArg String.data h
  rw [show (sha256hex a).data = "sha256$".data ++ a.data from rfl,
      show (sha256hex b).data = "sha256$".data ++ b.data from rfl] at hd
  have := List.append_cancel_left hd
  exact congrArg String.mk this

theorem id_lt_nextUserId (db : Db) : ∀ u ∈ db.users, u.id < nextUserId db := by
  rw [nextUserId]
  have : ∀ (l : List UserRow) (u : UserRow), u ∈ l →
      u.id ≤ l.foldr (fun u m => max u.id m) 0 := by
    intro l
    induction l with
    | nil => simp
    | cons x xs ih =>
      intro u hu
      rcases List.mem_cons.mp hu with h1 | h1
      · rw [h1, List.foldr_cons]
        exact Nat.le_max_left _ _
      · rw [List.foldr_cons]
        exact le_trans (ih u h1) (Nat.le_max_right _ _)
  intro u hu
  have := this db.users u hu
  omega

/-- C5: registering a fresh username and logging in with the same
credentials yields a token that verifies to the new user (the password is
checked against the stored salted hash); and for any stored user, a login
whose password fails the hash check is refused with the 400 error (so no
token is issued).  The freshness hypotheses say the two issued tokens are
distinct and the second token's hash is not already in the session table —
true of fresh `secrets.token_hex` randomness. -/
theorem claim_C5 :
    (∀ (db : Db) (name u p salt tok : String) (now : Nat) (tok2 : String) (now2 : Nat),
        find_by_username db u = none →
        (∀ s ∈ db.sessions, s.token_hash ≠ sha256hex tok2) →
        tok2 ≠ tok →
        ∃ db1 db2,
          register db name u p salt tok now = .ok (tok, db1)
          ∧ login db1 u p tok2 now2 = .ok (tok2, db2)
          ∧ verify db2 tok2 now2 = .ok (nextUserId db, u, name))
    ∧ (∀ (db : Db) (u p2 tok : String) (now : Nat) (usr : UserRow),
        find_by_username db u = some usr →
        checkpw p2 usr.password = false →
        login db u p2 tok now = .error ⟨400, "Incorrect username or password"⟩) := by
  constructor
  · intro db name u p salt tok now tok2 now2 hU hfresh hne
    set newUser : UserRow := ⟨nextUserId db, u, hashpw p salt, name⟩ with hnewUser
    set dbU : Db := { db with users := db.users ++ [newUser] } with hdbU
    set sReg : SessionRow :=
      ⟨nextSessionId dbU, nextUserId db, sha256hex tok, now + SESSION_LIFETIME, 1⟩ with hsReg
    set db1 : Db := { dbU with sessions := dbU.sessions ++ [sReg] } with hdb1
    set s2 : SessionRow :=
      ⟨nextSessionId db1, nextUserId db, sha256hex tok2, now2 + SESSION_LIFETIME, 1⟩ with hs2
    set db2 : Db := { db1 with sessions := db1.sessions ++ [s2] } with hdb2
    have hreg : register db name u p salt tok now = .ok (tok, db1) := by
      rw [register.eq_def, hU]
      rfl
    have hfindU : find_by_username db1 u = some newUser := by
      rw [find_by_username]
      show (db.users ++ [newUser]).find? _ = _
      rw [find?_append_of_none (by rw [find_by_username] at hU; exact hU)]
      simp [hnewUser]
    have hcp : checkpw p newUser.password = true := by
      simp [hnewUser, checkpw, hashpw]
    have hlog : login db1 u p tok2 now2 = .ok (tok2, db2) := by
      rw [login.eq_def, hfindU]
      show (if checkpw p newUser.password = true then
              Except.ok (session_create db1 newUser.id tok2 now2)
            else Except.error (HttpErr.mk 400 "Incorrect username or password"))
          = Except.ok (tok2, db2)
      rw [if_pos hcp]
      rfl
    have hps2 : (s2.token_hash == sha256hex tok2 && s2.is_active == 1
        && decide (now2 < s2.expires_at)) = true := by
      simp only [hs2, Bool.and_eq_true, beq_iff_eq, decide_eq_true_eq]
      constructor
      · constructor <;> trivial
      · rw [SESSION_LIFETIME]
        omega
    have hO : ((db.sessions ++ [sReg]).find? (fun s =>
        s.token_hash == sha256hex tok2 && s.is_active == 1
          && decide (now2 < s.expires_at))) = none := by
      refine List.find?_eq_none.mpr ?_
      intro s hs
      rcases List.mem_append.mp hs with h1 | h1
      · simp [hfresh s h1]
      · simp only [List.mem_singleton] at h1
        have hhash : sReg.token_hash ≠ sha256hex tok2 := by
          rw [hsReg]
          intro hc
          exact hne (sha256hex_inj hc).symm
        rw [h1]
        simp [hhash]
    have hfindT : find_by_token db2 tok2 now2 = some s2 := by
      rw [find_by_token]
      show ((db.sessions ++ [sReg]) ++ [s2]).find? _ = _
      rw [find?_append_of_none hO]
      exact List.find?_cons_of_pos _ hps2
    have hfindI : find_by_id db2 (nextUserId db) = some newUser := by
      rw [find_by_id]
      show (db.users ++ [newUser]).find? _ = _
      rw [find?_append_of_none]
      · simp [hnewUser]
      · refine List.find?_eq_none.mpr ?_
        intro x hx
        have := id_lt_nextUserId db x hx
        simp only [beq_iff_eq]
        omega
    have hver : verify db2 tok2 now2 = .ok (nextUserId db, u, name) := by
      rw [verify.eq_def, hfindT]
      show (match find_by_id db2 (nextUserId db) with
            | none => Except.error (HttpErr.mk 401 "User not found")
            | some u3 => Except.ok (nextUserId db, u3.username, u3.name))
          = Except.ok (nextUserId db, u, name)
      rw [hfindI]
    exact ⟨db1, db2, hreg, hlog, hver⟩
  · intro db u p2 tok now usr hfind hcheck
    rw [login.eq_def, hfind]
    show (if checkpw p2 usr.password = true then
            Except.ok (session_create db usr.id tok now)
          else Except.error (HttpErr.mk 400 "Incorrect username or password"))
        = Except.error (HttpErr.mk 400 "Incorrect username or password")
    rw [if_neg (by simp [hcheck])]

/-- Witness for C5: an empty store, fresh tokens, distinct credentials; and
the refusal of a wrong password against a stored user. -/
theorem claim_C5_witness :
    (∃ db1 db2,
        register ⟨[], []⟩ "Alice" "alice" "pw1" "salt1" "tokA" 100 = .ok ("tokA", db1)
        ∧ login db1 "alice" "pw1" "tokB" 200 = .ok ("tokB", db2)
        ∧ verify db2 "tokB" 200 = .ok (nextUserId ⟨[], []⟩, "alice", "Alice"))
    ∧ login ⟨[⟨1, "alice", ⟨"salt1", "pw1"⟩, "Alice"⟩], []⟩ "alice" "wrong" "tokC" 300
      = .error ⟨400, "Incorrect username or password"⟩ := by
  constructor
  · exact claim_C5.1 ⟨[], []⟩ "Alice" "alice" "pw1" "salt1" "tokA" 100 "tokB" 200
      rfl (by intro s hs; simp at hs) (by decide)
  · exact claim_C5.2 ⟨[⟨1, "alice", ⟨"salt1", "pw1"⟩, "Alice"⟩], []⟩ "alice" "wrong"
      "tokC" 300 ⟨1, "alice", ⟨"salt1", "pw1"⟩, "Alice"⟩ rfl (by decide)

/-! ## Combined listing (C10) -/

theorem mem_foldl_addPub_of_mem {p : String} {e : TaggedFile} :
    ∀ (pubs : List String) (acc : List TaggedFile), e ∈ acc →
      e ∈ pubs.foldl (addPub p) acc := by
  intro pubs
  induction pubs with
  | nil => intro acc h; simpa using h
  | cons n pubs ih =>
    intro acc h
    rw [List.foldl_cons]
    refine ih (addPub p acc n) ?_
    rw [addPub]
    split
    · exact h
    · exact List.mem_append.mpr (Or.inl h)

theorem mem_foldl_addPub {p : String} {e : TaggedFile} :
    ∀ (pubs : List String) (acc : List TaggedFile),
      e ∈ pubs.foldl (addPub p) acc →
      e ∈ acc ∨ ∃ n ∈ pubs, e = pubEntry p n := by
  intro pubs
  induction pubs with
  | nil => intro acc h; exact Or.inl (by simpa using h)
  | cons n pubs ih =>
    intro acc h
    rw [List.foldl_cons] at h
    rcases ih (addPub p acc n) h with h1 | h1
    · rw [addPub] at h1
      split at h1
      · exact Or.inl h1
      · rcases List.mem_append.mp h1 with h2 | h2
        · exact Or.inl h2
        · exact Or.inr ⟨n, by simp, by simpa using h2⟩
    · obtain ⟨n2, hn2, he⟩ := h1
      exact Or.inr ⟨n2, by simp [hn2], he⟩

theorem foldl_addPub_shadow {p : String} {ups : List String} :
    ∀ (pubs : List String) (acc : List TaggedFile),
      (∀ u ∈ ups, ∃ a ∈ acc, a.name = u) →
      (∀ e ∈ acc, e.source = "public" → e.name ∉ ups) →
      ∀ e ∈ pubs.foldl (addPub p) acc, e.source = "public" → e.name ∉ ups := by
  intro pubs
  induction pubs with
  | nil =>
    intro acc _ hshad e he
    exact hshad e (by simpa using he)
  | cons n pubs ih =>
    intro acc hcov hshad e he
    rw [List.foldl_cons] at he
    refine ih (addPub p acc n) ?_ ?_ e he
    · intro u hu
      obtain ⟨a, ha, hname⟩ := hcov u hu
      refine ⟨a, ?_, hname⟩
      rw [addPub]
      split
      · exact ha
      · exact List.mem_append.mpr (Or.inl ha)
    · intro x hx hsrc
      rw [addPub] at hx
      split at hx
      · exact hshad x hx hsrc
      next hfind =>
        rcases List.mem_append.mp hx with h2 | h2
        · exact hshad x h2 hsrc
        · simp only [List.mem_singleton] at h2
          rw [h2]
          show ¬ n ∈ ups
          intro hn
          obtain ⟨a, ha, hname⟩ := hcov n hn
          refine hfind ?_
          rw [List.find?_isSome]
          exact ⟨a, ha, by simp [hname]⟩

/-- C10: the combined listing is empty whenever no (truthy) public bucket
parameter is supplied, whatever the default bucket holds; with a public
bucket distinct from the default, every uploaded file appears with its tags,
no public-tagged entry repeats an uploaded file's name (uploaded files
shadow same-named public files), and every entry carries either the
uploaded tagging with the default bucket or the public tagging with the
public bucket. -/
theorem claim_C10 :
    (∀ (DB : String) (pb : Option String) (st : GcsState),
        pyTruthy pb = false → get_combined_files DB pb st = [])
    ∧ (∀ (DB p : String) (st : GcsState) (ups pubs : List String),
        p ≠ "" → p ≠ DB →
        get_bucket_files DB st = .ok ups →
        get_bucket_files p st = .ok pubs →
        (∀ n ∈ ups, upEntry DB n ∈ get_combined_files DB (some p) st)
        ∧ (∀ e ∈ get_combined_files DB (some p) st, e.source = "public" → e.name ∉ ups)
        ∧ (∀ e ∈ get_combined_files DB (some p) st,
            e = upEntry DB e.name ∨ e = pubEntry p e.name)) := by
  constructor
  · intro DB pb st h
    rw [get_combined_files, h]
    simp
  · intro DB p st ups pubs hp hpd hups hpubs
    have htr : pyTruthy (some p) = true := by
      rw [pyTruthy]
      cases hie : p.isEmpty
      · rfl
      · exact absurd ((String.isEmpty_iff p).mp hie) hp
    have hcomb : get_combined_files DB (some p) st
        = pubs.foldl (addPub p) (ups.map (upEntry DB)) := by
      rw [get_combined_files, htr, if_pos rfl]
      show (if p ≠ DB then _ else _) = _
      rw [if_pos hpd]
      show (match get_bucket_files p st with
            | .ok fs => fs.foldl (addPub p)
                (match get_bucket_files DB st with
                  | .ok fs2 => fs2.map (upEntry DB)
                  | .error _ => [])
            | .error _ =>
                (match get_bucket_files DB st with
                  | .ok fs2 => fs2.map (upEntry DB)
                  | .error _ => [])) = _
      rw [hups, hpubs]
    rw [hcomb]
    refine ⟨?_, ?_, ?_⟩
    · intro n hn
      exact mem_foldl_addPub_of_mem pubs _ (List.mem_map.mpr ⟨n, hn, rfl⟩)
    · refine foldl_addPub_shadow pubs _ ?_ ?_
      · intro u hu
        exact ⟨upEntry DB u, List.mem_map.mpr ⟨u, hu, rfl⟩, rfl⟩
      · intro e he hsrc
        obtain ⟨n, _, hn⟩ := List.mem_map.mp he
        rw [← hn] at hsrc
        have hbad : ("uploaded" : String) = "public" := hsrc
        exact absurd hbad (by decide)
    · intro e he
      rcases mem_foldl_addPub pubs _ he with h1 | h1
      · obtain ⟨n, _, hn⟩ := List.mem_map.mp h1
        exact Or.inl (by rw [← hn]; rfl)
      · obtain ⟨n, _, hn⟩ := h1
        exact Or.inr (by rw [hn]; rfl)

/-- Witness for C10 at a concrete store: no parameter gives the empty list
even though the default bucket has files; with a distinct public bucket the
shared name appears only as an uploaded entry. -/
theorem claim_C10_witness :
    get_combined_files "ai-analysis-default-bucket" none
        ⟨[("ai-analysis-default-bucket", ["a.csv"])]⟩ = []
    ∧ (upEntry "ai-analysis-default-bucket" "a.csv"
        ∈ get_combined_files "ai-analysis-default-bucket" (some "sample-bucket-v2901")
            ⟨[("ai-analysis-default-bucket", ["a.csv"]),
              ("sample-bucket-v2901", ["a.csv", "b.csv"])]⟩)
    ∧ (∀ e ∈ get_combined_files "ai-analysis-default-bucket" (some "sample-bucket-v2901")
            ⟨[("ai-analysis-default-bucket", ["a.csv"]),
              ("sample-bucket-v2901", ["a.csv", "b.csv"])]⟩,
        e.source = "public" → e.name ∉ (["a.csv"] : List String)) := by
  refine ⟨claim_C10.1 _ none _ rfl, ?_, ?_⟩
  · exact (claim_C10.2 "ai-analysis-default-bucket" "sample-bucket-v2901"
      ⟨[("ai-analysis-default-bucket", ["a.csv"]),
        ("sample-bucket-v2901", ["a.csv", "b.csv"])]⟩
      ["a.csv"] ["a.csv", "b.csv"] (by decide) (by decide) rfl rfl).1 "a.csv" (by decide)
  · exact (claim_C10.2 "ai-analysis-default-bucket" "sample-bucket-v2901"
      ⟨[("ai-analysis-default-bucket", ["a.csv"]),
        ("sample-bucket-v2901", ["a.csv", "b.csv"])]⟩
      ["a.csv"] ["a.csv", "b.csv"] (by decide) (by decide) rfl rfl).2.1

/-! ## Auto-selection fallback (C2) -/

theorem strip_printRecords (df : JData) :
    stripL (printRecords df ++ ['\n']) = printRecords df := by
  rw [stripL]
  have hfront : List.dropWhile pyIsSpace (printRecords df ++ ['\n'])
      = printRecords df ++ ['\n'] := by
    rw [printRecords, List.cons_append, List.dropWhile_cons, if_neg (by decide)]
  rw [hfront]
  have hrev : (printRecords df ++ ['\n']).reverse
      = '\n' :: ']' :: ((joinComma (df.map printRecord)).reverse ++ ['[']) := by
    rw [printRecords]
    simp
  rw [hrev, List.dropWhile_cons, if_pos (by decide), List.dropWhile_cons,
    if_neg (by decide)]
  rw [printRecords]
  simp

/-- C2: an Execute request whose python code never binds `ans_df` but leaves
exactly one DataFrame in the child's globals still produces a table.  The
wrapper selects that frame as `ans_df`, prints it between the sentinels
after whatever the earlier code printed, the parent recovers exactly the
serialized frame, and the rendered HTML is a table, not the no-data notice.
The two `subFind` hypotheses say the child's other output does not itself
contain sentinel text (the spec's known sentinel-spoofing caveat); the
cleanliness hypothesis restricts cells to exactly-serializable scalars. -/
theorem claim_C2 (prior : String) (g : List (String × PyVal)) (nm : String) (df : JData)
    (hno : lookupG g "ans_df" = none)
    (hone : dfCandidates g = [(nm, df)])
    (hne : df ≠ [])
    (hclean : dataCleanB df = true)
    (hS : subFind startMarker (childStdout prior df).data = some prior.data.length)
    (hE : subFind endMarker (childStdout prior df).data
        = some (prior.data.length + 19 + (printRecords df).length + 1)) :
    childRun prior g = .exited 0 (childStdout prior df) ""
    ∧ execute_python_code_in_kernel (childRun prior g) = .ok df
    ∧ json_to_html_table df ≠ "<p>No data to display</p>"
    ∧ subFind "<table".data (json_to_html_table df).data = some 5 := by
  have hf : g.find? (fun kv => kv.1 == "ans_df") = none := by
    rw [lookupG] at hno
    exact Option.map_eq_none'.mp hno
  have hlk : lookupG (g ++ [("ans_df", PyVal.pdf df)]) "ans_df"
      = some (PyVal.pdf df) := by
    rw [lookupG, find?_append_of_none hf]
    rfl
  have hrun : childRun prior g = .exited 0 (childStdout prior df) "" := by
    simp only [childRun, hone, hno, List.getLast?_singleton, hlk]
  have hdata : (childStdout prior df).data
      = (prior.data ++ "SUCCESS_JSON_START\n".data)
        ++ (printRecords df ++ ('\n' :: "SUCCESS_JSON_END\n".data)) := by
    show (prior ++ "SUCCESS_JSON_START\n" ++ dfToJson df ++ "\nSUCCESS_JSON_END\n").data = _
    simp [String.data_append, dfToJson]
  have hslice : pySlice (childStdout prior df).data (prior.data.length + 18 + 1)
      (prior.data.length + 19 + (printRecords df).length + 1)
      = printRecords df ++ ['\n'] := by
    rw [pySlice, hdata]
    rw [List.drop_left' (by simp [List.length_append]; try omega
      : (prior.data ++ "SUCCESS_JSON_START\n".data).length = prior.data.length + 18 + 1)]
    have h2 : printRecords df ++ '\n' :: "SUCCESS_JSON_END\n".data
        = (printRecords df ++ ['\n']) ++ "SUCCESS_JSON_END\n".data := by simp
    rw [h2]
    rw [List.take_left' (by simp [List.length_append]; try omega
      : (printRecords df ++ ['\n']).length
        = prior.data.length + 19 + (printRecords df).length + 1
          - (prior.data.length + 18 + 1))]
  have hexec : execute_python_code_in_kernel (.exited 0 (childStdout prior df) "")
      = .ok df := by
    simp only [execute_python_code_in_kernel, if_neg (by simp : ¬((0 : Int) ≠ 0)), hS, hE]
    rw [hslice, strip_printRecords, jsonLoads_print df hclean]
  have h4 : subFind "<table".data (json_to_html_table df).data = some 5 := by
    rw [json_to_html_table, if_neg hne]
    rfl
  have h3 : json_to_html_table df ≠ "<p>No data to display</p>" := by
    intro hcontra
    have h5 := h4
    rw [hcontra] at h5
    exact absurd h5 (by decide)
  exact ⟨hrun, by rw [hrun]; exact hexec, h3, h4⟩

/-- Witness for C2: globals holding one non-frame binding and one frame
bound to `my_df`, with loader output printed before the wrapper runs. -/
theorem claim_C2_witness :
    childRun "Loaded races from sample bucket\n"
        [("races", PyVal.other), ("my_df", PyVal.pdf [[("a", .jint 1)]])]
      = .exited 0 (childStdout "Loaded races from sample bucket\n" [[("a", .jint 1)]]) ""
    ∧ execute_python_code_in_kernel (childRun "Loaded races from sample bucket\n"
        [("races", PyVal.other), ("my_df", PyVal.pdf [[("a", .jint 1)]])])
      = .ok [[("a", .jint 1)]]
    ∧ json_to_html_table [[("a", .jint 1)]] ≠ "<p>No data to display</p>"
    ∧ subFind "<table".data (json_to_html_table [[("a", .jint 1)]]).data = some 5 :=
  claim_C2 "Loaded races from sample bucket\n"
    [("races", PyVal.other), ("my_df", PyVal.pdf [[("a", .jint 1)]])]
    "my_df" [[("a", .jint 1)]]
    rfl rfl (by decide) (by decide) (by decide) (by decide)

end Analytics
